import Mathlib

/-!
Shallow embedding of the wow-analytics concurrent fetch-transform-store
pipeline: the Blizzard API adapters (`src/adapters/blizzard_api/client.py`,
`src/adapters/blizzard_api/auctions.py`), the domain models
(`src/domain/models.py`), the dataset transformers
(`src/usecases/data_transformers.py`) and the pipeline orchestrator
(`src/usecases/fetch_and_store_auctions.py`).

Conventions of the embedding:
* Python `dict` payloads are modelled by the `JVal` JSON tree; `dict.get`
  with a default is modelled by the `getIntD` / `getStrD` / `getArrD`
  helpers.  Payloads whose present fields carry values of an unexpected
  JSON type (for example a string where the API schema has an integer)
  are outside the modelled input space.
* Async functions are modelled as pure functions; an `await` that can
  raise is modelled by `Except String`.  A bounded concurrent batch is
  modelled by `BatchResult` together with the list of identifiers whose
  per-identifier fetch actually ran (the dispatch trace).
* Machine-width casts performed by pandas `astype` are modelled with
  explicit two's-complement wrapping (`wrapInt`).
* Python strings are modelled as `String`; the character-level helpers
  below mirror `str.split`, `str.isdigit` and `int(...)`.
-/

/-- Two's-complement wrap of an integer to a signed `w`-bit value, the
overflow behaviour of a numpy integer cast. -/
def wrapInt (w : Nat) (n : Int) : Int :=
  (n + 2 ^ (w - 1)) % (2 : Int) ^ w - 2 ^ (w - 1)

/-- Zero-padded two-digit rendering, as Python `%m`, `%d`, `%H`. -/
def pad2 (n : Nat) : String :=
  if n < 10 then "0" ++ toString n else toString n

/-- Zero-padded four-digit rendering, as Python `%Y`. -/
def pad4 (n : Nat) : String :=
  if n < 10 then "000" ++ toString n
  else if n < 100 then "00" ++ toString n
  else if n < 1000 then "0" ++ toString n
  else toString n

/-- UTC instant, modelling the Python `datetime` values produced by
`datetime.now(timezone.utc)` and `datetime.utcnow()`. -/
structure Timestamp where
  year : Nat
  month : Nat
  day : Nat
  hour : Nat
  minute : Nat
  second : Nat
deriving DecidableEq, Repr

/-- Python `timestamp.strftime("%Y-%m-%d")`. -/
def strfDate (t : Timestamp) : String :=
  pad4 t.year ++ "-" ++ pad2 t.month ++ "-" ++ pad2 t.day

/-- Python `timestamp.strftime("%H")`. -/
def strfHour (t : Timestamp) : String :=
  pad2 t.hour

/-- Python `timestamp.strftime("%Y%m%d%H%M%S")`. -/
def strfCompact (t : Timestamp) : String :=
  pad4 t.year ++ pad2 t.month ++ pad2 t.day ++ pad2 t.hour ++ pad2 t.minute ++ pad2 t.second

/-- Does the character list start with the given pattern? -/
def listStartsWith : List Char → List Char → Bool
  | _, [] => true
  | [], _ :: _ => false
  | a :: as, b :: bs => a = b && listStartsWith as bs

/-- Fuel-driven worker for `pySplit`; the fuel is an upper bound on the
number of characters still to scan, so the fuel-exhausted branch is never
taken when called through `pySplit`. -/
def pySplitAux (sep : List Char) : Nat → List Char → List Char → List (List Char)
  | 0, s, cur => [cur.reverse ++ s]
  | _ + 1, [], cur => [cur.reverse]
  | fuel + 1, c :: rest, cur =>
    if listStartsWith (c :: rest) sep then
      cur.reverse :: pySplitAux sep fuel (rest.drop (sep.length - 1)) []
    else
      pySplitAux sep fuel rest (c :: cur)

/-- Python `s.split(sep)` for a non-empty separator: greedy left-to-right
splitting at every non-overlapping occurrence of `sep`. -/
def pySplit (s : String) (sep : String) : List String :=
  (pySplitAux sep.data s.data.length s.data []).map String.mk

/-- Python `sub in s` substring containment. -/
def pyContainsAux (sub : List Char) : Nat → List Char → Bool
  | 0, s => listStartsWith s sub
  | fuel + 1, s =>
    listStartsWith s sub ||
      match s with
      | [] => false
      | _ :: rest => pyContainsAux sub fuel rest

/-- Python `sub in s` for strings. -/
def pyContains (s : String) (sub : String) : Bool :=
  pyContainsAux sub.data s.data.length s.data

/-- Python `s.isdigit()` restricted to ASCII digits. -/
def pyIsDigit (s : String) : Bool :=
  !s.data.isEmpty && s.data.all Char.isDigit

/-- Numeric value of a list of ASCII digits. -/
def digitsVal (cs : List Char) : Nat :=
  cs.foldl (fun a c => a * 10 + (c.toNat - '0'.toNat)) 0

/-- Python `int(s)`: optional surrounding spaces, an optional sign, then
decimal digits; anything else raises `ValueError` (`none` here). -/
def pyInt? (s : String) : Option Int :=
  let t := s.data.dropWhile (· = ' ') |>.reverse.dropWhile (· = ' ') |>.reverse
  let core := if t.headD ' ' = '-' ∨ t.headD ' ' = '+' then t.drop 1 else t
  if !core.isEmpty && core.all Char.isDigit then
    if t.headD ' ' = '-' then some (-(digitsVal core : Int)) else some (digitsVal core)
  else
    none

/-- Cell value inside a pandas DataFrame row. -/
inductive PyVal where
  | noneV : PyVal
  | int : Int → PyVal
  | str : String → PyVal
  | bool : Bool → PyVal
  | ts : Timestamp → PyVal
deriving DecidableEq, Repr

/-- One materialized DataFrame row: an ordered association of column name
to cell value. -/
abbrev Record := List (String × PyVal)

/-- Lookup of a cell by column name. -/
def recordGet (r : Record) (k : String) : Option PyVal :=
  (r.find? (fun kv => kv.1 = k)).map (·.2)

/-- Cell lookup where a missing key materializes as a null cell, the way
pandas fills absent dict keys with NaN. -/
def cellOf (r : Record) (k : String) : PyVal :=
  (recordGet r k).getD .noneV

/-- Replace the value stored under a key, leaving other cells alone. -/
def recordSet (r : Record) (k : String) (v : PyVal) : Record :=
  r.map (fun kv => if kv.1 = k then (kv.1, v) else kv)

/-- JSON payload tree as returned by `response.json()`. -/
inductive JVal where
  | jnull : JVal
  | jbool : Bool → JVal
  | jint : Int → JVal
  | jstr : String → JVal
  | jarr : List JVal → JVal
  | jobj : List (String × JVal) → JVal

/-- Python `d.get(k)` on a JSON object (absent key gives `None`). -/
def JVal.lookup? : JVal → String → Option JVal
  | .jobj kvs, k => (kvs.find? (fun kv => kv.1 = k)).map (·.2)
  | _, _ => none

/-- Python `k in d` membership for a JSON object. -/
def JVal.hasKey (j : JVal) (k : String) : Bool :=
  (j.lookup? k).isSome

/-- Python `d.get(k, default)` for an integer field. -/
def getIntD (j : JVal) (k : String) (d : Int) : Int :=
  match j.lookup? k with
  | some (.jint n) => n
  | _ => d

/-- Python `d.get(k)` for an optional integer field (`None` for an absent
or null value). -/
def getInt? (j : JVal) (k : String) : Option Int :=
  match j.lookup? k with
  | some (.jint n) => some n
  | _ => none

/-- Python `d.get(k, default)` for a string field. -/
def getStrD (j : JVal) (k : String) (d : String) : String :=
  match j.lookup? k with
  | some (.jstr s) => s
  | _ => d

/-- Python `d.get(k)` for an optional string field. -/
def getStr? (j : JVal) (k : String) : Option String :=
  match j.lookup? k with
  | some (.jstr s) => some s
  | _ => none

/-- Python `d.get(k, [])` for a list-valued field. -/
def getArrD (j : JVal) (k : String) : List JVal :=
  match j.lookup? k with
  | some (.jarr xs) => xs
  | _ => []

/-- Python `d.get(k, {})` for an object-valued field. -/
def getObjD (j : JVal) (k : String) : JVal :=
  match j.lookup? k with
  | some v => v
  | none => .jobj []

/-- Integer elements of a JSON array field, as `tuple(d.get(k, []))` on an
array of integers. -/
def getIntArrD (j : JVal) (k : String) : List Int :=
  (getArrD j k).filterMap (fun v => match v with | .jint n => some n | _ => none)

/-- Representation of the `modifiers` attribute actually stored on an
`AuctionItem` instance: `client.py` stores a tuple of `(type, value)`
pairs, while `domain/models.py` stores a dict keyed by modifier type, and
a best-effort payload may leave the attribute `None`. -/
inductive ModifiersRepr where
  | pairsTuple : List (Int × Int) → ModifiersRepr
  | typeDict : List (Option Int × Option Int) → ModifiersRepr
  | noneRepr : ModifiersRepr
deriving DecidableEq, Repr

/-- Domain model `AuctionItem` (`domain/models.py`). -/
structure AuctionItemM where
  id : Option Int
  bonus_lists : Option (List Int)
  modifiers : ModifiersRepr
deriving DecidableEq, Repr

/-- Domain model `Auction` (`domain/models.py`). -/
structure AuctionM where
  id : Option Int
  item : AuctionItemM
  quantity : Int
  time_left : Option String
  unit_price : Option Int
  buyout : Option Int
  bid : Option Int
deriving DecidableEq, Repr

/-- Domain model `AuctionData` (`domain/models.py`). -/
structure AuctionDataM where
  connected_realm_id : Option Int
  auctions : List AuctionM
  fetch_timestamp : Timestamp
deriving DecidableEq, Repr

/-- Domain model `ConnectedRealm` (`domain/models.py`); `status` and
`population` are optional enum value strings. -/
structure ConnectedRealmM where
  id : Int
  realm_names : List String
  realm_slugs : List String
  status : Option String
  population : Option String
  has_queue : Bool
deriving DecidableEq, Repr

/-- Python `dict` insertion: replace the value of an existing key in
place, otherwise append the new binding at the end. -/
def pyDictInsert {K V : Type} [DecidableEq K] : List (K × V) → K → V → List (K × V)
  | [], k, v => [(k, v)]
  | kv :: t, k, v => if kv.1 = k then (k, v) :: t else kv :: pyDictInsert t k v

/-- Python dict built from a sequence of key/value pairs, later bindings
overwriting earlier ones (dict comprehension semantics). -/
def buildDict {K V : Type} [DecidableEq K] (entries : List (K × V)) : List (K × V) :=
  entries.foldl (fun d p => pyDictInsert d p.1 p.2) []

/-- Python `d[k]`-style lookup on the association-list dict model. -/
def pyDictGet? {K V : Type} [DecidableEq K] (d : List (K × V)) (k : K) : Option V :=
  (d.find? (fun kv => kv.1 = k)).map (·.2)

/-- Key list of the association-list dict model. -/
def pyDictKeys {K V : Type} (d : List (K × V)) : List K :=
  d.map (·.1)

/-- Modifier parsing in `BlizzardAPIClient._parse_auction_data`
(`client.py` line 269): a tuple of `(m.get("type", 0), m.get("value", 0))`
pairs, in source order. -/
def parse_modifiers_client (mods : List JVal) : List (Int × Int) :=
  mods.map (fun m => (getIntD m "type" 0, getIntD m "value" 0))

/-- Modifier parsing in `AuctionData.from_api_response`
(`domain/models.py` line 66): the dict comprehension
`{mod.get("type"): mod.get("value") for mod in ...}`. -/
def parse_modifiers_models (mods : List JVal) : List (Option Int × Option Int) :=
  buildDict (mods.map (fun m => (getInt? m "type", getInt? m "value")))

/-- One auction as parsed by `BlizzardAPIClient._parse_auction_data`
(`client.py` lines 264-280). -/
def parse_auction_client (a : JVal) : AuctionM :=
  let item_data := getObjD a "item"
  { id := some (getIntD a "id" 0)
    item :=
      { id := some (getIntD item_data "id" 0)
        bonus_lists := some (getIntArrD item_data "bonus_lists")
        modifiers := .pairsTuple (parse_modifiers_client (getArrD item_data "modifiers")) }
    quantity := getIntD a "quantity" 1
    time_left := some (getStrD a "time_left" "UNKNOWN")
    unit_price := getInt? a "unit_price"
    buyout := getInt? a "buyout"
    bid := getInt? a "bid" }

/-- `BlizzardAPIClient._parse_auction_data` (`client.py` lines 261-286);
`now` stands for the `datetime.now(timezone.utc)` call. -/
def parse_auction_data (data : JVal) (connected_realm_id : Int) (now : Timestamp) : AuctionDataM :=
  { connected_realm_id := some connected_realm_id
    auctions := (getArrD data "auctions").map parse_auction_client
    fetch_timestamp := now }

/-- One auction as parsed by `AuctionData.from_api_response`
(`domain/models.py` lines 61-77). -/
def parse_auction_models (a : JVal) : AuctionM :=
  let item_data := getObjD a "item"
  { id := getInt? a "id"
    item :=
      { id := getInt? item_data "id"
        bonus_lists :=
          if item_data.hasKey "bonus_lists" then some (getIntArrD item_data "bonus_lists")
          else none
        modifiers :=
          if item_data.hasKey "modifiers" then
            .typeDict (parse_modifiers_models (getArrD item_data "modifiers"))
          else .noneRepr }
    quantity := getIntD a "quantity" 1
    time_left := getStr? a "time_left"
    unit_price := getInt? a "unit_price"
    buyout := getInt? a "buyout"
    bid := getInt? a "bid" }

/-- `AuctionData.from_api_response` (`domain/models.py` lines 57-82);
`connected_realm_id` defaults to `None` when the caller omits it, and
`now` stands for the `datetime.utcnow()` default factory. -/
def AuctionData_from_api_response (response : JVal) (connected_realm_id : Option Int) (now : Timestamp) : AuctionDataM :=
  { connected_realm_id := connected_realm_id
    auctions := (getArrD response "auctions").map parse_auction_models
    fetch_timestamp := now }

/-- `BlizzardAPIClient.get_commodity_auctions` (`client.py` lines
241-245): parses the commodity payload with `connected_realm_id=0`. -/
def get_commodity_auctions_client (payload : JVal) (now : Timestamp) : AuctionDataM :=
  parse_auction_data payload 0 now

/-- `AuctionsClient.get_commodity_auctions` (`auctions.py` lines 64-71):
calls `AuctionData.from_api_response(data)` without a realm id, so the
model keeps its `None` default. -/
def get_commodity_auctions_auctions (payload : JVal) (now : Timestamp) : AuctionDataM :=
  AuctionData_from_api_response payload none now

/-- Declaration-level facts about a Python dataclass: its name, whether
the decorator is `@dataclass(frozen=True)`, and whether it generates the
structural `__eq__` (`eq=True`, the default for every class here). -/
structure DataclassInfo where
  name : String
  frozen : Bool
  structuralEq : Bool
deriving DecidableEq, Repr

/-- The seven domain record declarations of `domain/models.py`, with
their `frozen` flags exactly as written in the source decorators:
`AuctionItem` (line 27), `Auction` (line 36) and `ConnectedRealm`
(line 85) are `@dataclass(frozen=True)`, while `AuctionData` (line 49),
`Item` (line 136), `Recipe` (line 216) and `Profession` (line 247) are
plain `@dataclass`. -/
def domainDataclasses : List DataclassInfo :=
  [ { name := "AuctionItem", frozen := true, structuralEq := true }
  , { name := "Auction", frozen := true, structuralEq := true }
  , { name := "AuctionData", frozen := false, structuralEq := true }
  , { name := "ConnectedRealm", frozen := true, structuralEq := true }
  , { name := "Item", frozen := false, structuralEq := true }
  , { name := "Recipe", frozen := false, structuralEq := true }
  , { name := "Profession", frozen := false, structuralEq := true } ]

/-- Lookup of a domain dataclass declaration by class name. -/
def dataclassByName (s : String) : DataclassInfo :=
  (domainDataclasses.find? (fun c => c.name = s)).getD { name := "", frozen := false, structuralEq := false }

/-- Python dataclass `__setattr__` semantics: assigning to a field of a
`frozen=True` dataclass raises `FrozenInstanceError`; on a non-frozen
dataclass the assignment mutates the record and succeeds. -/
def dataclassSetattr (c : DataclassInfo) : Except String Unit :=
  if c.frozen then .error "FrozenInstanceError" else .ok ()

/-- Pandas / PyArrow column dtype as far as the transformers use it. -/
inductive DType where
  | obj : DType
  | int64 : DType
  | int32 : DType
  | int16 : DType
  | nullableInt64 : DType
  | category : DType
  | boolDt : DType
deriving DecidableEq, Repr

/-- Model of a pandas DataFrame: ordered column names, fully materialized
rows (every row carries a cell for every column), and per-column dtypes. -/
structure DataFrame where
  columns : List String
  rows : List Record
  dtypes : List (String × DType)
deriving DecidableEq, Repr

/-- Column-name union in first-seen order, the way `pd.DataFrame(records)`
derives its columns from a list of dicts. -/
def firstSeenKeys (records : List Record) : List String :=
  records.foldl (fun acc r => r.foldl (fun acc kv => if kv.1 ∈ acc then acc else acc ++ [kv.1]) acc) []

/-- `pd.DataFrame(records)`: one row per input dict, columns in first-seen
key order, absent keys materialized as null cells, all dtypes inferred
(modelled as `obj`). -/
def mkDataFrame (records : List Record) : DataFrame :=
  let cols := firstSeenKeys records
  { columns := cols
    rows := records.map (fun r => cols.map (fun c => (c, cellOf r c)))
    dtypes := cols.map (fun c => (c, DType.obj)) }

/-- Value-level conversion performed by `series.astype(dtype)` on one
cell; `none` is a conversion failure (pandas raises for the whole
column).  Signed integer dtypes wrap like the underlying numpy cast, the
nullable `Int64` dtype keeps nulls, and `category` keeps values as they
are. -/
def castCell (dt : DType) (v : PyVal) : Option PyVal :=
  match dt, v with
  | .obj, v => some v
  | .category, v => some v
  | .int64, .int n => some (.int (wrapInt 64 n))
  | .int64, .bool b => some (.int (if b then 1 else 0))
  | .int64, .str s => (pyInt? s).map (fun n => .int (wrapInt 64 n))
  | .int64, _ => none
  | .int32, .int n => some (.int (wrapInt 32 n))
  | .int32, .bool b => some (.int (if b then 1 else 0))
  | .int32, .str s => (pyInt? s).map (fun n => .int (wrapInt 32 n))
  | .int32, _ => none
  | .int16, .int n => some (.int (wrapInt 16 n))
  | .int16, .bool b => some (.int (if b then 1 else 0))
  | .int16, .str s => (pyInt? s).map (fun n => .int (wrapInt 16 n))
  | .int16, _ => none
  | .nullableInt64, .noneV => some .noneV
  | .nullableInt64, .int n => some (.int (wrapInt 64 n))
  | .nullableInt64, .bool b => some (.int (if b then 1 else 0))
  | .nullableInt64, .str s => (pyInt? s).map (fun n => .int (wrapInt 64 n))
  | .nullableInt64, _ => none
  | .boolDt, .bool b => some (.bool b)
  | .boolDt, _ => none

/-- Record the dtype chosen for a column. -/
def dtypeSet (ds : List (String × DType)) (c : String) (dt : DType) : List (String × DType) :=
  ds.map (fun kv => if kv.1 = c then (kv.1, dt) else kv)

/-- `df[c] = df[c].astype(dt)`: raises `KeyError` for an unknown column,
raises a cast error if any cell of the column fails to convert, and
otherwise rewrites every cell of the column and its dtype. -/
def df_astype (df : DataFrame) (c : String) (dt : DType) : Except String DataFrame :=
  if c ∈ df.columns then
    if df.rows.all (fun r => (castCell dt (cellOf r c)).isSome) then
      .ok { columns := df.columns
            rows := df.rows.map (fun r => recordSet r c ((castCell dt (cellOf r c)).getD .noneV))
            dtypes := dtypeSet df.dtypes c dt }
    else .error ("cannot cast column " ++ c)
  else .error ("KeyError: " ++ c)

/-- Sequential execution of `astype` assignments, one statement after the
other, stopping at the first raised error. -/
def astypeChain (df : DataFrame) : List (String × DType) → Except String DataFrame
  | [] => .ok df
  | (c, dt) :: t =>
    match df_astype df c dt with
    | .error e => .error e
    | .ok df2 => astypeChain df2 t

/-- The eight `astype` statements of `_optimize_auction_dtypes`
(`data_transformers.py` lines 154-165), in source order. -/
def auctionDtypeSteps : List (String × DType) :=
  [ ("auction_id", .int64), ("item_id", .int32), ("quantity", .int16)
  , ("connected_realm_id", .int32), ("unit_price", .nullableInt64)
  , ("buyout", .nullableInt64), ("bid", .nullableInt64), ("time_left", .category) ]

/-- `_optimize_auction_dtypes` (`data_transformers.py` lines 142-167). -/
def optimize_auction_dtypes (df : DataFrame) : Except String DataFrame :=
  astypeChain df auctionDtypeSteps

/-- The four `astype` statements of `_optimize_realm_dtypes`
(`data_transformers.py` lines 172-175), in source order. -/
def realmDtypeSteps : List (String × DType) :=
  [ ("id", .int32), ("status", .category), ("population", .category), ("has_queue", .boolDt) ]

/-- `_optimize_realm_dtypes` (`data_transformers.py` lines 170-177). -/
def optimize_realm_dtypes (df : DataFrame) : Except String DataFrame :=
  astypeChain df realmDtypeSteps

/-- Python `str(list(xs))` for a list of integers: `"[1, 2, 3]"`. -/
def pyStrIntList (xs : List Int) : String :=
  "[" ++ String.intercalate ", " (xs.map toString) ++ "]"

/-- Python `str` of an optional integer: `None` renders as `"None"`. -/
def pyStrOptInt (v : Option Int) : String :=
  match v with
  | some n => toString n
  | none => "None"

/-- Serialization of `bonus_lists` in `auctions_to_dataframe` (line 90):
`str(list(auction.item.bonus_lists)) if auction.item.bonus_lists else
"[]"` — both `None` and an empty tuple are falsy. -/
def serialize_bonus_lists (b : Option (List Int)) : String :=
  match b with
  | some (x :: xs) => pyStrIntList (x :: xs)
  | _ => "[]"

/-- Serialization of `modifiers` in `auctions_to_dataframe` (line 91):
`str(list(auction.item.modifiers)) if auction.item.modifiers else "[]"`.
`list` of a tuple of pairs keeps the pairs; `list` of the dict stored by
`AuctionData.from_api_response` keeps only the keys. -/
def serialize_modifiers (m : ModifiersRepr) : String :=
  match m with
  | .pairsTuple (x :: xs) =>
      "[" ++ String.intercalate ", " ((x :: xs).map (fun p => "(" ++ toString p.1 ++ ", " ++ toString p.2 ++ ")")) ++ "]"
  | .typeDict (x :: xs) =>
      "[" ++ String.intercalate ", " ((x :: xs).map (fun p => pyStrOptInt p.1)) ++ "]"
  | _ => "[]"

/-- Cell for an optional integer field: Python `None` becomes a null. -/
def optIntCell (v : Option Int) : PyVal :=
  match v with
  | some n => .int n
  | none => .noneV

/-- Cell for an optional string field. -/
def optStrCell (v : Option String) : PyVal :=
  match v with
  | some s => .str s
  | none => .noneV

/-- The per-auction record dict built in the loop of
`auctions_to_dataframe` (`data_transformers.py` lines 81-100), with the
partition columns appended when requested. -/
def auctionRecord (ad : AuctionDataM) (include_partition_cols : Bool) (a : AuctionM) : Record :=
  [ ("auction_id", optIntCell a.id)
  , ("item_id", optIntCell a.item.id)
  , ("quantity", .int a.quantity)
  , ("time_left", optStrCell a.time_left)
  , ("unit_price", optIntCell a.unit_price)
  , ("buyout", optIntCell a.buyout)
  , ("bid", optIntCell a.bid)
  , ("bonus_lists", .str (serialize_bonus_lists a.item.bonus_lists))
  , ("modifiers", .str (serialize_modifiers a.item.modifiers))
  , ("connected_realm_id", optIntCell ad.connected_realm_id)
  , ("fetch_timestamp", .ts ad.fetch_timestamp) ]
  ++ (if include_partition_cols then
        [ ("date", .str (strfDate ad.fetch_timestamp))
        , ("hour", .str (strfHour ad.fetch_timestamp)) ]
      else [])

/-- `auctions_to_dataframe` (`data_transformers.py` lines 64-108): one
record per auction, `pd.DataFrame(records)`, and dtype optimization only
when the frame is non-empty. -/
def auctions_to_dataframe (ad : AuctionDataM) (include_partition_cols : Bool) : Except String DataFrame :=
  let records := ad.auctions.map (auctionRecord ad include_partition_cols)
  let df := mkDataFrame records
  if 0 < df.rows.length then optimize_auction_dtypes df else .ok df

/-- Python attribute access `x.value` on an optional enum member:
`None` has no `value` attribute, so a missing enum raises. -/
def enumValue (v : Option String) : Except String String :=
  match v with
  | some s => .ok s
  | none => .error "AttributeError: NoneType object has no attribute value"

/-- The per-realm record dict built in `connected_realms_to_dataframe`
(`data_transformers.py` lines 123-132). -/
def realmRecord (realm : ConnectedRealmM) : Except String Record := do
  let st ← enumValue realm.status
  let pop ← enumValue realm.population
  .ok [ ("id", .int realm.id)
      , ("realm_names", .str (String.intercalate "," realm.realm_names))
      , ("realm_slugs", .str (String.intercalate "," realm.realm_slugs))
      , ("status", .str st)
      , ("population", .str pop)
      , ("has_queue", .bool realm.has_queue) ]

/-- `connected_realms_to_dataframe` (`data_transformers.py` lines
111-139). -/
def connected_realms_to_dataframe (realms : List (Int × ConnectedRealmM)) : Except String DataFrame := do
  let records ← realms.mapM (fun p => realmRecord p.2)
  let df := mkDataFrame records
  if 0 < df.rows.length then optimize_realm_dtypes df else .ok df

/-- `generate_auction_path` (`data_transformers.py` lines 180-204). -/
def generate_auction_path (timestamp : Timestamp) (realm_id : Int) (base_path : String := "auctions") : String :=
  let date_str := strfDate timestamp
  let hour_str := strfHour timestamp
  let file_ts := strfCompact timestamp
  if realm_id = 0 then
    base_path ++ "/" ++ date_str ++ "/" ++ hour_str ++ "/commodities/commodities_" ++ file_ts ++ ".parquet"
  else
    base_path ++ "/" ++ date_str ++ "/" ++ hour_str ++ "/realm_" ++ toString realm_id ++ "/auctions_" ++ file_ts ++ ".parquet"

/-- The column names of `AUCTION_SCHEMA` (`data_transformers.py` lines
28-45), in schema order. -/
def auctionSchemaColumns : List String :=
  [ "auction_id", "item_id", "quantity", "time_left", "unit_price", "buyout", "bid"
  , "bonus_lists", "modifiers", "connected_realm_id", "fetch_timestamp", "date", "hour" ]

/-- Outcome of one bounded concurrent batch call: the call can raise an
exception, never complete (every task parked on a zero-capacity
semaphore), or return a value. -/
inductive BatchResult (α : Type) where
  | raised : String → BatchResult α
  | pending : BatchResult α
  | completed : α → BatchResult α
deriving DecidableEq, Repr

/-- `asyncio.Semaphore(value)` constructor check: a negative initial
value raises `ValueError`; zero is accepted (tasks then wait forever). -/
def semaphoreCheck (value : Int) : Option String :=
  if value < 0 then some "ValueError: Semaphore initial value must be >= 0" else none

/-- `BlizzardAPIClient.get_multiple_realm_auctions` (`client.py` lines
247-259).  One task per element of `realm_ids`; `asyncio.gather` is used
without `return_exceptions`, so if any per-realm fetch raises, the
sibling tasks still run to completion but the batch call itself raises
and no mapping is returned.  The result pairs the list of realm ids
whose fetch coroutine actually ran with the batch outcome; the mapping is
the dict comprehension over `(rid, data)` results. -/
def get_multiple_realm_auctions_client (fetch : Int → Except String AuctionDataM)
    (realm_ids : List Int) (max_concurrent : Int) :
    List Int × BatchResult (List (Int × AuctionDataM)) :=
  match semaphoreCheck max_concurrent with
  | some msg => ([], .raised msg)
  | none =>
    if max_concurrent = 0 ∧ realm_ids ≠ [] then ([], .pending)
    else
      let results := realm_ids.map (fun rid => (rid, fetch rid))
      match results.findSome? (fun p => match p.2 with | .error e => some e | .ok _ => none) with
      | some e => (realm_ids, .raised e)
      | none =>
        (realm_ids, .completed (buildDict (results.filterMap
          (fun p => match p.2 with | .ok d => some (p.1, d) | .error _ => none))))

/-- `AuctionsClient.get_multiple_realm_auctions` (`auctions.py` lines
73-99).  Each task wraps its fetch in `try/except Exception`, returning
`(realm_id, None)` on failure; the final dict comprehension keeps only
non-`None` results, so the call itself always completes (for a valid
semaphore) and a failing id is simply absent. -/
def get_multiple_realm_auctions_auctions (fetch : Int → Except String AuctionDataM)
    (realm_ids : List Int) (max_concurrent : Int) :
    List Int × BatchResult (List (Int × AuctionDataM)) :=
  match semaphoreCheck max_concurrent with
  | some msg => ([], .raised msg)
  | none =>
    if max_concurrent = 0 ∧ realm_ids ≠ [] then ([], .pending)
    else
      let results := realm_ids.map (fun rid => (rid, (fetch rid).toOption))
      (realm_ids, .completed (buildDict (results.filterMap
        (fun p => match p.2 with | some d => some (p.1, d) | none => none))))

/-- `BlizzardAPIClient.get_all_connected_realms` (`client.py` lines
203-218).  `get_connected_realm` returns `None` on a 404; the gather has
no exception handling, and the dict comprehension keeps only non-`None`
realms. -/
def get_all_connected_realms (fetch : Int → Except String (Option ConnectedRealmM))
    (realm_ids : List Int) (max_concurrent : Int) :
    List Int × BatchResult (List (Int × ConnectedRealmM)) :=
  match semaphoreCheck max_concurrent with
  | some msg => ([], .raised msg)
  | none =>
    if max_concurrent = 0 ∧ realm_ids ≠ [] then ([], .pending)
    else
      let results := realm_ids.map (fun rid => (rid, fetch rid))
      match results.findSome? (fun p => match p.2 with | .error e => some e | .ok _ => none) with
      | some e => (realm_ids, .raised e)
      | none =>
        (realm_ids, .completed (buildDict (results.filterMap
          (fun p => match p.2 with | .ok (some r) => some (p.1, r) | _ => none))))

/-- Per-href id extraction of `BlizzardAPIClient.get_connected_realm_ids`
(`client.py` lines 185-190): `none` when the marker substring is absent
(the entry is skipped); otherwise `int()` applied to the text between the
marker and the first `?`, which raises `ValueError` on a non-numeric
segment. -/
def client_extract_realm_id (href : String) : Option (Except String Int) :=
  if pyContains href "/connected-realm/" then
    let seg := ((pySplit href "/connected-realm/").getD 1 "")
    let seg := (pySplit seg "?").headD ""
    match pyInt? seg with
    | some n => some (.ok n)
    | none => some (.error ("ValueError: invalid literal for int() with base 10: " ++ seg))
  else none

/-- `BlizzardAPIClient.get_connected_realm_ids` (`client.py` lines
181-191) applied to the entries of `data.get("connected_realms", [])`. -/
def get_connected_realm_ids_client (payload : JVal) : Except String (List Int) :=
  (getArrD payload "connected_realms").foldlM
    (fun acc realm =>
      match client_extract_realm_id (getStrD realm "href" "") with
      | none => .ok acc
      | some (.ok n) => .ok (acc ++ [n])
      | some (.error e) => .error e)
    []

/-- Per-href id extraction of `AuctionsClient.get_connected_realm_ids`
(`auctions.py` lines 33-36): the trailing `/`-segment before any `?`,
kept only when the href is non-empty and the segment is all digits. -/
def auctions_extract_realm_id (href : String) : Option Int :=
  let realm_id := if href ≠ "" then some ((pySplit ((pySplit href "/").getLastD "") "?").headD "") else none
  match realm_id with
  | some s => if s ≠ "" ∧ pyIsDigit s then some (digitsVal s.data) else none
  | none => none

/-- `AuctionsClient.get_connected_realm_ids` (`auctions.py` lines 23-38):
total, skipping every href that does not end in a numeric segment. -/
def get_connected_realm_ids_auctions (payload : JVal) : List Int :=
  (getArrD payload "connected_realms").foldl
    (fun acc realm =>
      match auctions_extract_realm_id (getStrD realm "href" "") with
      | some n => acc ++ [n]
      | none => acc)
    []

/-- One storage write performed through `ParquetStoragePort.write`: the
relative path and the DataFrame written there. -/
structure WriteOp where
  path : String
  df : DataFrame
deriving DecidableEq, Repr

/-- `FetchAndStoreAuctionsUseCase.fetch_and_store_realm_metadata`
(`fetch_and_store_auctions.py` lines 57-87), parameterized by the realm
mapping returned from the port: transform, write only when the frame is
non-empty, return the mapping.  The first component collects the writes
that were issued before any raised exception. -/
def fetch_and_store_realm_metadata (realms : List (Int × ConnectedRealmM)) :
    List WriteOp × Except String (List (Int × ConnectedRealmM)) :=
  match connected_realms_to_dataframe realms with
  | .error e => ([], .error e)
  | .ok df =>
    (if 0 < df.rows.length then [{ path := "global/connected_realms.parquet", df := df }] else [],
     .ok realms)

/-- Loop body of `fetch_and_store_realm_auctions`: realms with at least
one auction are transformed and written, accumulating writes and result
paths; a transform failure propagates after the earlier writes. -/
def storeRealmAuctionsLoop : List (Int × AuctionDataM) → List WriteOp → List (Int × String) →
    List WriteOp × Except String (List (Int × String))
  | [], ws, ps => (ws, .ok ps)
  | (realm_id, ad) :: t, ws, ps =>
    if 0 < ad.auctions.length then
      match auctions_to_dataframe ad true with
      | .error e => (ws, .error e)
      | .ok df =>
        let path := generate_auction_path ad.fetch_timestamp realm_id
        storeRealmAuctionsLoop t (ws ++ [{ path := path, df := df }]) (ps ++ [(realm_id, path)])
    else storeRealmAuctionsLoop t ws ps

/-- `FetchAndStoreAuctionsUseCase.fetch_and_store_realm_auctions`
(`fetch_and_store_auctions.py` lines 89-132), parameterized by the
realm-to-auctions mapping the bounded fetch returned. -/
def fetch_and_store_realm_auctions (auctions_by_realm : List (Int × AuctionDataM)) :
    List WriteOp × Except String (List (Int × String)) :=
  storeRealmAuctionsLoop auctions_by_realm [] []

/-- `FetchAndStoreAuctionsUseCase.fetch_and_store_commodities`
(`fetch_and_store_auctions.py` lines 134-163), parameterized by the
commodity `AuctionData` the port returned: `None` without any write for
an empty pool, otherwise transform and write at the realm-0 path. -/
def fetch_and_store_commodities (ad : AuctionDataM) :
    List WriteOp × Except String (Option String) :=
  if ad.auctions.length = 0 then ([], .ok none)
  else
    match auctions_to_dataframe ad true with
    | .error e => ([], .error e)
    | .ok df =>
      let path := generate_auction_path ad.fetch_timestamp 0
      ([{ path := path, df := df }], .ok (some path))

/-- The structured result dict of `execute`
(`fetch_and_store_auctions.py` lines 191-195): each component either
carries its output or keeps the `None` marker. -/
structure ExecResult where
  realms : Option (List (Int × ConnectedRealmM))
  auctions : Option (List (Int × String))
  commodities : Option String
deriving DecidableEq, Repr

/-- Outcomes of the three awaited sub-workflow calls inside `execute`,
abstracting each `await self.fetch_and_store_...` as the value or
exception it would produce. -/
structure WorkflowRuns where
  realmsWf : Except String (List (Int × ConnectedRealmM))
  auctionsWf : Except String (List (Int × String))
  commoditiesWf : Except String (Option String)

/-- Commodity stage of `execute` (lines 209-210). -/
def executeCommoditiesStep (trace : List String) (res : ExecResult) (include_commodities : Bool)
    (wf : Except String (Option String)) : List String × Except String ExecResult :=
  if include_commodities then
    match wf with
    | .error e => (trace ++ ["commodities"], .error e)
    | .ok c => (trace ++ ["commodities"], .ok { res with commodities := c })
  else (trace, .ok res)

/-- Auction stage of `execute` (lines 202-206) followed by the commodity
stage. -/
def executeAuctionsStep (trace : List String) (res : ExecResult) (include_auctions : Bool)
    (auctionsWf : Except String (List (Int × String))) (include_commodities : Bool)
    (commoditiesWf : Except String (Option String)) : List String × Except String ExecResult :=
  if include_auctions then
    match auctionsWf with
    | .error e => (trace ++ ["auctions"], .error e)
    | .ok a => executeCommoditiesStep (trace ++ ["auctions"]) { res with auctions := some a } include_commodities commoditiesWf
  else executeCommoditiesStep trace res include_commodities commoditiesWf

/-- `FetchAndStoreAuctionsUseCase.execute`
(`fetch_and_store_auctions.py` lines 165-212): the three workflows are
awaited strictly in sequence with no exception handling, so an exception
raised by an earlier included workflow propagates out of `execute` and
the later workflows are never invoked.  The first component is the list
of workflows that were actually invoked. -/
def execute (include_realms include_auctions include_commodities : Bool) (w : WorkflowRuns) :
    List String × Except String ExecResult :=
  let res : ExecResult := { realms := none, auctions := none, commodities := none }
  if include_realms then
    match w.realmsWf with
    | .error e => (["realms"], .error e)
    | .ok r => executeAuctionsStep ["realms"] { res with realms := some r } include_auctions w.auctionsWf include_commodities w.commoditiesWf
  else executeAuctionsStep [] res include_auctions w.auctionsWf include_commodities w.commoditiesWf


/-- JSON encoding of one raw modifier object `{"type": t, "value": v}`. -/
def encodeModifier (p : Int × Int) : JVal :=
  .jobj [("type", .jint p.1), ("value", .jint p.2)]

/-- Fixed fetch instant used by the concrete test scenarios. -/
def t0 : Timestamp :=
  { year := 2024, month := 1, day := 15, hour := 14, minute := 5, second := 32 }

/-- An auction batch for realm `i` holding no auctions. -/
def adOf (i : Int) : AuctionDataM :=
  { connected_realm_id := some i, auctions := [], fetch_timestamp := t0 }

/-- A per-realm fetch that raises for realm 12 and succeeds elsewhere,
the scenario of spec section 8. -/
def fetchBoom : Int → Except String AuctionDataM :=
  fun i => if i = 12 then .error "boom" else .ok (adOf i)

/-- A per-realm fetch that always succeeds with an empty batch. -/
def fetchOkEmpty : Int → Except String AuctionDataM :=
  fun i => .ok (adOf i)

/-- A per-realm realm-details fetch that always succeeds. -/
def realmFixture : ConnectedRealmM :=
  { id := 1, realm_names := ["Alpha"], realm_slugs := ["alpha"]
    status := some "UP", population := some "FULL", has_queue := false }

/-- Realm-details fetch returning the fixture realm for every id. -/
def fetchRealmOk : Int → Except String (Option ConnectedRealmM) :=
  fun _ => .ok (some realmFixture)

/-- Connected-realm index payload whose single href carries the numeric
trailing segment of the spec example. -/
def linkPayloadGood : JVal :=
  .jobj [("connected_realms", .jarr
    [.jobj [("href", .jstr "https://eu.api.blizzard.com/data/wow/connected-realm/1234?namespace=dynamic-eu")]])]

/-- Connected-realm index payload whose single href has a non-numeric
trailing segment. -/
def linkPayloadBad : JVal :=
  .jobj [("connected_realms", .jarr
    [.jobj [("href", .jstr "https://eu.api.blizzard.com/data/wow/connected-realm/abc?namespace=dynamic-eu")]])]

/-- Commodity payload with one auction whose item carries two modifiers
sharing the same modifier type. -/
def modPayload : JVal :=
  .jobj [("auctions", .jarr [.jobj
    [ ("id", .jint 7), ("quantity", .jint 2), ("unit_price", .jint 100)
    , ("item", .jobj [("id", .jint 5), ("modifiers", .jarr
        [ .jobj [("type", .jint 1), ("value", .jint 2)]
        , .jobj [("type", .jint 1), ("value", .jint 3)] ])]) ]])]

/-- A fully-typed auction used to exercise the transformer. -/
def fullAuction : AuctionM :=
  { id := some 7
    item := { id := some 5, bonus_lists := some [1, 2], modifiers := .pairsTuple [(1, 2)] }
    quantity := 2, time_left := some "SHORT", unit_price := some 100, buyout := none, bid := none }

/-- Workflow outcomes where every sub-workflow succeeds. -/
def wfRunsOk : WorkflowRuns :=
  { realmsWf := .ok [(1, realmFixture)], auctionsWf := .ok [(1, "p1")]
    commoditiesWf := .ok (some "c1") }

/-- Workflow outcomes where the realm-metadata workflow raises while the
other two would succeed. -/
def wfRunsRealmsFail : WorkflowRuns :=
  { realmsWf := .error "boom", auctionsWf := .ok [(1, "p1")]
    commoditiesWf := .ok (some "c1") }


lemma pyDictGet?_cons {K V : Type} [DecidableEq K] (k1 : K) (v1 : V) (t : List (K × V)) (x : K) :
    pyDictGet? ((k1, v1) :: t) x = if k1 = x then some v1 else pyDictGet? t x := by
  by_cases h : k1 = x <;> simp [pyDictGet?, List.find?, h]

lemma pyDictGet?_insert {K V : Type} [DecidableEq K] (d : List (K × V)) (k : K) (v : V) (x : K) :
    pyDictGet? (pyDictInsert d k v) x = if x = k then some v else pyDictGet? d x := by
  induction d with
  | nil =>
    show pyDictGet? [(k, v)] x = _
    rw [pyDictGet?_cons]
    by_cases h : x = k
    · rw [if_pos h.symm, if_pos h]
    · have h2 : ¬ k = x := fun hh => h hh.symm
      rw [if_neg h2, if_neg h]
  | cons kv t ih =>
    obtain ⟨k1, v1⟩ := kv
    by_cases hk : k1 = k
    · have heq : pyDictInsert ((k1, v1) :: t) k v = (k, v) :: t := by simp [pyDictInsert, hk]
      rw [heq, pyDictGet?_cons, pyDictGet?_cons]
      by_cases h : x = k
      · rw [if_pos h.symm, if_pos h]
      · have h2 : ¬ k = x := fun hh => h hh.symm
        have h3 : ¬ k1 = x := by rw [hk]; exact h2
        rw [if_neg h2, if_neg h, if_neg h3]
    · have heq : pyDictInsert ((k1, v1) :: t) k v = (k1, v1) :: pyDictInsert t k v := by
        simp [pyDictInsert, hk]
      rw [heq, pyDictGet?_cons, ih, pyDictGet?_cons]
      by_cases h1 : k1 = x
      · have hxk : ¬ x = k := fun hh => hk (h1.trans hh)
        rw [if_pos h1, if_neg hxk, if_pos h1]
      · rw [if_neg h1, if_neg h1]

lemma mem_pyDictKeys_insert {K V : Type} [DecidableEq K] (d : List (K × V)) (k : K) (v : V) (x : K) :
    x ∈ pyDictKeys (pyDictInsert d k v) ↔ x = k ∨ x ∈ pyDictKeys d := by
  induction d with
  | nil => simp [pyDictInsert, pyDictKeys]
  | cons kv t ih =>
    obtain ⟨k1, v1⟩ := kv
    by_cases hk : k1 = k
    · subst hk
      have heq : pyDictInsert ((k1, v1) :: t) k1 v = (k1, v) :: t := by simp [pyDictInsert]
      rw [heq]
      simp only [pyDictKeys, List.map_cons, List.mem_cons]
      tauto
    · have : pyDictInsert ((k1, v1) :: t) k v = (k1, v1) :: pyDictInsert t k v := by
        simp [pyDictInsert, hk]
      rw [this]
      simp only [pyDictKeys, List.map_cons, List.mem_cons] at ih ⊢
      rw [ih]
      tauto

lemma nodup_pyDictKeys_insert {K V : Type} [DecidableEq K] (d : List (K × V)) (k : K) (v : V)
    (h : (pyDictKeys d).Nodup) : (pyDictKeys (pyDictInsert d k v)).Nodup := by
  induction d with
  | nil => simp [pyDictInsert, pyDictKeys]
  | cons kv t ih =>
    obtain ⟨k1, v1⟩ := kv
    simp only [pyDictKeys, List.map_cons, List.nodup_cons] at h
    by_cases hk : k1 = k
    · subst hk
      have : pyDictInsert ((k1, v1) :: t) k1 v = (k1, v) :: t := by simp [pyDictInsert]
      rw [this]
      simp only [pyDictKeys, List.map_cons, List.nodup_cons]
      exact ⟨h.1, h.2⟩
    · have : pyDictInsert ((k1, v1) :: t) k v = (k1, v1) :: pyDictInsert t k v := by
        simp [pyDictInsert, hk]
      rw [this]
      simp only [pyDictKeys, List.map_cons, List.nodup_cons]
      refine ⟨fun hmem => ?_, ih h.2⟩
      rcases (mem_pyDictKeys_insert t k v k1).mp hmem with h1 | h1
      · exact hk h1
      · exact h.1 h1

lemma mem_pyDictKeys_buildDict_aux {K V : Type} [DecidableEq K] (es : List (K × V))
    (acc : List (K × V)) (x : K) :
    x ∈ pyDictKeys (es.foldl (fun d p => pyDictInsert d p.1 p.2) acc) ↔
      x ∈ pyDictKeys acc ∨ x ∈ es.map Prod.fst := by
  induction es generalizing acc with
  | nil => simp
  | cons p t ih =>
    simp only [List.foldl_cons, List.map_cons, List.mem_cons]
    rw [ih, mem_pyDictKeys_insert]
    tauto

lemma mem_pyDictKeys_buildDict {K V : Type} [DecidableEq K] (es : List (K × V)) (x : K) :
    x ∈ pyDictKeys (buildDict es) ↔ x ∈ es.map Prod.fst := by
  have h := mem_pyDictKeys_buildDict_aux es [] x
  simpa [buildDict, pyDictKeys] using h

lemma nodup_pyDictKeys_buildDict_aux {K V : Type} [DecidableEq K] (es : List (K × V))
    (acc : List (K × V)) (h : (pyDictKeys acc).Nodup) :
    (pyDictKeys (es.foldl (fun d p => pyDictInsert d p.1 p.2) acc)).Nodup := by
  induction es generalizing acc with
  | nil => simpa
  | cons p t ih => exact ih _ (nodup_pyDictKeys_insert _ _ _ h)

lemma nodup_pyDictKeys_buildDict {K V : Type} [DecidableEq K] (es : List (K × V)) :
    (pyDictKeys (buildDict es)).Nodup := by
  have h := nodup_pyDictKeys_buildDict_aux es [] (by simp [pyDictKeys])
  simpa [buildDict] using h

lemma pyDictGet?_buildDict_aux_of_not_mem {K V : Type} [DecidableEq K] (es : List (K × V))
    (acc : List (K × V)) (x : K) (hx : x ∉ es.map Prod.fst) :
    pyDictGet? (es.foldl (fun d p => pyDictInsert d p.1 p.2) acc) x = pyDictGet? acc x := by
  induction es generalizing acc with
  | nil => simp
  | cons p t ih =>
    simp only [List.map_cons, List.mem_cons, not_or] at hx
    simp only [List.foldl_cons]
    rw [ih _ hx.2, pyDictGet?_insert, if_neg hx.1]

lemma pyDictGet?_buildDict_of_not_mem {K V : Type} [DecidableEq K] (es : List (K × V))
    (x : K) (hx : x ∉ es.map Prod.fst) : pyDictGet? (buildDict es) x = none := by
  rw [buildDict, pyDictGet?_buildDict_aux_of_not_mem es [] x hx]
  simp [pyDictGet?]

lemma pyDictGet?_buildDict_aux_uniform {K V : Type} [DecidableEq K] (es : List (K × V))
    (acc : List (K × V)) (x : K) (d : V)
    (hall : ∀ p ∈ es, p.1 = x → p.2 = d)
    (hacc : pyDictGet? acc x = some d ∨ (pyDictGet? acc x = none ∧ x ∈ es.map Prod.fst)) :
    pyDictGet? (es.foldl (fun dd p => pyDictInsert dd p.1 p.2) acc) x = some d := by
  induction es generalizing acc with
  | nil =>
    rcases hacc with h | h
    · simpa using h
    · simp at h
  | cons p t ih =>
    simp only [List.foldl_cons]
    have hallT : ∀ q ∈ t, q.1 = x → q.2 = d :=
      fun q hq hqx => hall q (List.mem_cons_of_mem p hq) hqx
    by_cases hp : p.1 = x
    · have hv : p.2 = d := hall p (List.mem_cons_self p t) hp
      refine ih _ hallT (Or.inl ?_)
      rw [pyDictGet?_insert, hp, if_pos rfl, hv]
    · have hacc2 : pyDictGet? (pyDictInsert acc p.1 p.2) x = pyDictGet? acc x := by
        rw [pyDictGet?_insert, if_neg (fun hh => hp hh.symm)]
      refine ih _ hallT ?_
      rcases hacc with h | h
      · exact Or.inl (hacc2.trans h)
      · refine Or.inr ⟨hacc2.trans h.1, ?_⟩
        have h2 := h.2
        rw [List.map_cons] at h2
        rcases List.mem_cons.mp h2 with h1 | h1
        · exact absurd h1.symm hp
        · exact h1

lemma pyDictGet?_buildDict_uniform {K V : Type} [DecidableEq K] (es : List (K × V))
    (x : K) (d : V) (hall : ∀ p ∈ es, p.1 = x → p.2 = d) (hmem : x ∈ es.map Prod.fst) :
    pyDictGet? (buildDict es) x = some d := by
  refine pyDictGet?_buildDict_aux_uniform es [] x d hall (Or.inr ⟨?_, hmem⟩)
  simp [pyDictGet?]

/-- Successful entries of a batch, in dispatch order: for every id whose
per-id outcome is a value, the pair of id and value. -/
def fetchEntries {V : Type} (g : Int → Option V) (ids : List Int) : List (Int × V) :=
  ids.filterMap (fun i => (g i).map (fun d => (i, d)))


lemma filterMap_ext {α β : Type} (f g : α → Option β) (l : List α) (h : ∀ a, f a = g a) :
    l.filterMap f = l.filterMap g := by
  induction l with
  | nil => rfl
  | cons a t ih => rw [List.filterMap_cons, List.filterMap_cons, h a, ih]

lemma mem_map_fst_fetchEntries {V : Type} (g : Int → Option V) (ids : List Int) (x : Int) :
    x ∈ (fetchEntries g ids).map Prod.fst ↔ x ∈ ids ∧ (g x).isSome := by
  constructor
  · intro hx
    rcases List.mem_map.mp hx with ⟨p, hp, hpx⟩
    rcases List.mem_filterMap.mp hp with ⟨i, hi, hfi⟩
    cases hgi : g i with
    | none => rw [hgi] at hfi; simp at hfi
    | some v =>
      rw [hgi, show Option.map (fun d => (i, d)) (some v) = some (i, v) from rfl] at hfi
      cases hfi
      rw [← hpx]
      exact ⟨hi, by rw [hgi]; rfl⟩
  · rintro ⟨hx, hsome⟩
    rcases Option.isSome_iff_exists.mp hsome with ⟨v, hv⟩
    refine List.mem_map.mpr ⟨(x, v), List.mem_filterMap.mpr ⟨x, hx, ?_⟩, rfl⟩
    rw [hv]
    rfl

lemma fetchEntries_uniform {V : Type} (g : Int → Option V) (ids : List Int) :
    ∀ p ∈ fetchEntries g ids, g p.1 = some p.2 := by
  intro p hp
  rcases List.mem_filterMap.mp hp with ⟨i, _, hfi⟩
  cases hgi : g i with
  | none => rw [hgi] at hfi; simp at hfi
  | some v =>
    rw [hgi, show Option.map (fun d => (i, d)) (some v) = some (i, v) from rfl] at hfi
    cases hfi
    exact hgi

/-- Per-id success view of `AuctionsClient.get_multiple_realm_auctions`:
the value when the fetch succeeds, `None` when it raises. -/
def auctionsFetchOpt (fetch : Int → Except String AuctionDataM) (i : Int) : Option AuctionDataM :=
  (fetch i).toOption

/-- Per-id success view of `BlizzardAPIClient.get_all_connected_realms`:
the realm when the fetch succeeds with a non-`None` realm. -/
def realmsFetchOpt (fetch : Int → Except String (Option ConnectedRealmM)) (i : Int) :
    Option ConnectedRealmM :=
  match fetch i with
  | .ok (some r) => some r
  | _ => none

lemma auctions_batch_spec (fetch : Int → Except String AuctionDataM) (ids : List Int)
    (mc : Int) (h : 1 ≤ mc) :
    get_multiple_realm_auctions_auctions fetch ids mc =
      (ids, .completed (buildDict (fetchEntries (auctionsFetchOpt fetch) ids))) := by
  have h1 : semaphoreCheck mc = none := by
    unfold semaphoreCheck
    rw [if_neg (by omega)]
  have h2 : ¬(mc = 0 ∧ ids ≠ []) := by
    rintro ⟨h0, _⟩; omega
  unfold get_multiple_realm_auctions_auctions
  rw [h1]
  simp only [if_neg h2]
  rw [List.filterMap_map]
  have hE := filterMap_ext
    ((fun p => match p.2 with | some d => some (p.1, d) | none => none) ∘
      (fun rid : Int => (rid, (fetch rid).toOption)))
    (fun i => (auctionsFetchOpt fetch i).map (fun d => (i, d))) ids
    (fun i => by cases hf : (fetch i).toOption <;> simp [Function.comp, auctionsFetchOpt, hf])
  rw [hE]
  rfl

lemma client_batch_raises_of_error (fetch : Int → Except String AuctionDataM) (ids : List Int)
    (mc : Int) (h : 1 ≤ mc) (i : Int) (hi : i ∈ ids) (e : String) (he : fetch i = .error e) :
    ∃ msg, get_multiple_realm_auctions_client fetch ids mc = (ids, .raised msg) := by
  have h1 : semaphoreCheck mc = none := by
    unfold semaphoreCheck
    rw [if_neg (by omega)]
  have h2 : ¬(mc = 0 ∧ ids ≠ []) := by
    rintro ⟨h0, _⟩; omega
  unfold get_multiple_realm_auctions_client
  rw [h1]
  simp only [if_neg h2]
  cases hfs : (ids.map (fun rid => (rid, fetch rid))).findSome?
      (fun p => match p.2 with | .error e => some e | .ok _ => none) with
  | none =>
    exfalso
    have hall := List.findSome?_eq_none_iff.mp hfs (i, fetch i) (List.mem_map_of_mem _ hi)
    rw [he] at hall
    simp at hall
  | some msg => exact ⟨msg, rfl⟩

lemma client_batch_completes_of_ok (fetch : Int → Except String AuctionDataM) (ids : List Int)
    (mc : Int) (h : 1 ≤ mc) (hok : ∀ i ∈ ids, ∃ v, fetch i = .ok v) :
    get_multiple_realm_auctions_client fetch ids mc =
      (ids, .completed (buildDict (fetchEntries (auctionsFetchOpt fetch) ids))) := by
  have h1 : semaphoreCheck mc = none := by
    unfold semaphoreCheck
    rw [if_neg (by omega)]
  have h2 : ¬(mc = 0 ∧ ids ≠ []) := by
    rintro ⟨h0, _⟩; omega
  unfold get_multiple_realm_auctions_client
  rw [h1]
  simp only [if_neg h2]
  have hfs : (ids.map (fun rid => (rid, fetch rid))).findSome?
      (fun p => match p.2 with | .error e => some e | .ok _ => none) = none := by
    rw [List.findSome?_eq_none_iff]
    intro p hp
    rcases List.mem_map.mp hp with ⟨i, hi, hpi⟩
    rcases hok i hi with ⟨v, hv⟩
    rw [← hpi, hv]
  rw [hfs]
  show (ids, BatchResult.completed _) = _
  rw [List.filterMap_map]
  have hE := filterMap_ext
    ((fun p => match p.2 with | .ok d => some (p.1, d) | .error _ => none) ∘
      (fun rid : Int => (rid, fetch rid)))
    (fun i => (auctionsFetchOpt fetch i).map (fun d => (i, d))) ids
    (fun i => by cases hf : fetch i <;> simp [Function.comp, auctionsFetchOpt, hf, Except.toOption])
  rw [hE]
  rfl

lemma realms_batch_completes_of_ok (fetch : Int → Except String (Option ConnectedRealmM))
    (ids : List Int) (mc : Int) (h : 1 ≤ mc) (hok : ∀ i ∈ ids, ∃ v, fetch i = .ok v) :
    get_all_connected_realms fetch ids mc =
      (ids, .completed (buildDict (fetchEntries (realmsFetchOpt fetch) ids))) := by
  have h1 : semaphoreCheck mc = none := by
    unfold semaphoreCheck
    rw [if_neg (by omega)]
  have h2 : ¬(mc = 0 ∧ ids ≠ []) := by
    rintro ⟨h0, _⟩; omega
  unfold get_all_connected_realms
  rw [h1]
  simp only [if_neg h2]
  have hfs : (ids.map (fun rid => (rid, fetch rid))).findSome?
      (fun p => match p.2 with | .error e => some e | .ok _ => none) = none := by
    rw [List.findSome?_eq_none_iff]
    intro p hp
    rcases List.mem_map.mp hp with ⟨i, hi, hpi⟩
    rcases hok i hi with ⟨v, hv⟩
    rw [← hpi, hv]
  rw [hfs]
  show (ids, BatchResult.completed _) = _
  rw [List.filterMap_map]
  have hE := filterMap_ext
    ((fun p => match p.2 with | .ok (some r) => some (p.1, r) | _ => none) ∘
      (fun rid : Int => (rid, fetch rid)))
    (fun i => (realmsFetchOpt fetch i).map (fun d => (i, d))) ids
    (fun i => by
      cases hf : fetch i with
      | error e => simp [Function.comp, realmsFetchOpt, hf]
      | ok v => cases v <;> simp [Function.comp, realmsFetchOpt, hf])
  rw [hE]
  rfl

lemma recordGet_recordSet (r : Record) (c : String) (v : PyVal) (k : String) :
    recordGet (recordSet r c v) k =
      if k = c then (recordGet r c).map (fun _ => v) else recordGet r k := by
  unfold recordGet recordSet
  rw [List.find?_map]
  have hp : ((fun kv : String × PyVal => decide (kv.1 = k)) ∘
      (fun kv => if kv.1 = c then (kv.1, v) else kv)) = (fun kv : String × PyVal => decide (kv.1 = k)) := by
    funext kv
    by_cases h : kv.1 = c <;> simp [Function.comp, h]
  rw [hp]
  cases hf : r.find? (fun kv => decide (kv.1 = k)) with
  | none =>
    by_cases h : k = c
    · subst h
      rw [if_pos rfl, hf]
      rfl
    · rw [if_neg h]
      rfl
  | some kv =>
    have hkv : kv.1 = k := by
      have h1 := List.find?_some hf
      simpa using h1
    by_cases h : k = c
    · subst h
      rw [if_pos rfl, hf]
      simp [hkv]
    · rw [if_neg h]
      have h2 : ¬ kv.1 = c := by rw [hkv]; exact h
      simp [h2]

lemma cellOf_recordSet_ne (r : Record) (c : String) (v : PyVal) (k : String) (h : k ≠ c) :
    cellOf (recordSet r c v) k = cellOf r k := by
  rw [cellOf, recordGet_recordSet, if_neg h, cellOf]

lemma castCell_noneV_of_isSome (dt : DType) (h : (castCell dt .noneV).isSome) :
    castCell dt .noneV = some .noneV := by
  cases dt <;> first | rfl | (exfalso; simp [castCell] at h)

lemma df_astype_ok_columns {df df2 : DataFrame} {c : String} {dt : DType}
    (h : df_astype df c dt = .ok df2) : df2.columns = df.columns := by
  unfold df_astype at h
  by_cases h1 : c ∈ df.columns
  · rw [if_pos h1] at h
    by_cases h2 : df.rows.all (fun r => (castCell dt (cellOf r c)).isSome)
    · rw [if_pos h2] at h
      cases h
      rfl
    · rw [if_neg h2] at h
      cases h
  · rw [if_neg h1] at h
    cases h

lemma df_astype_ok_rows_length {df df2 : DataFrame} {c : String} {dt : DType}
    (h : df_astype df c dt = .ok df2) : df2.rows.length = df.rows.length := by
  unfold df_astype at h
  by_cases h1 : c ∈ df.columns
  · rw [if_pos h1] at h
    by_cases h2 : df.rows.all (fun r => (castCell dt (cellOf r c)).isSome)
    · rw [if_pos h2] at h
      cases h
      simp
    · rw [if_neg h2] at h
      cases h
  · rw [if_neg h1] at h
    cases h

lemma df_astype_ok_rows {df df2 : DataFrame} {c : String} {dt : DType}
    (h : df_astype df c dt = .ok df2) :
    df2.rows = df.rows.map (fun r => recordSet r c ((castCell dt (cellOf r c)).getD .noneV)) ∧
      df.rows.all (fun r => (castCell dt (cellOf r c)).isSome) := by
  unfold df_astype at h
  by_cases h1 : c ∈ df.columns
  · rw [if_pos h1] at h
    by_cases h2 : df.rows.all (fun r => (castCell dt (cellOf r c)).isSome)
    · rw [if_pos h2] at h
      cases h
      exact ⟨rfl, h2⟩
    · rw [if_neg h2] at h
      cases h
  · rw [if_neg h1] at h
    cases h

lemma df_astype_ok_cells_ne {df df2 : DataFrame} {c : String} {dt : DType}
    (h : df_astype df c dt = .ok df2) (k : String) (hk : k ≠ c) :
    ∀ r2 ∈ df2.rows, ∃ r ∈ df.rows, cellOf r2 k = cellOf r k := by
  intro r2 hr2
  rw [(df_astype_ok_rows h).1] at hr2
  rcases List.mem_map.mp hr2 with ⟨r, hr, hrr⟩
  exact ⟨r, hr, by rw [← hrr, cellOf_recordSet_ne _ _ _ _ hk]⟩

lemma df_astype_ok_cell_const {df df2 : DataFrame} {c : String} {dt : DType} {v v1 : PyVal}
    (h : df_astype df c dt = .ok df2) (hv : ∀ r ∈ df.rows, cellOf r c = v)
    (hc : castCell dt v = some v1) : ∀ r2 ∈ df2.rows, cellOf r2 c = v1 := by
  intro r2 hr2
  rw [(df_astype_ok_rows h).1] at hr2
  rcases List.mem_map.mp hr2 with ⟨r, hr, hrr⟩
  subst hrr
  have hcell : cellOf r c = v := hv r hr
  unfold cellOf
  rw [recordGet_recordSet, if_pos rfl]
  cases hget : recordGet r c with
  | none =>
    have hvn : v = PyVal.noneV := by
      rw [← hcell]
      unfold cellOf
      rw [hget]
      rfl
    subst hvn
    have h1 : castCell dt PyVal.noneV = some PyVal.noneV :=
      castCell_noneV_of_isSome dt (by rw [hc]; rfl)
    rw [h1] at hc
    cases hc
    rfl
  | some w =>
    have hw : v = w := by
      rw [← hcell]
      unfold cellOf
      rw [hget]
      rfl
    subst hw
    simp [hc]

lemma df_astype_ok_of (df : DataFrame) (c : String) (dt : DType) (hc : c ∈ df.columns)
    (hcast : ∀ r ∈ df.rows, (castCell dt (cellOf r c)).isSome) :
    ∃ df2, df_astype df c dt = .ok df2 := by
  unfold df_astype
  rw [if_pos hc, if_pos (List.all_eq_true.mpr hcast)]
  exact ⟨_, rfl⟩

lemma df_astype_not_ok (df : DataFrame) (c : String) (dt : DType) (r : Record)
    (hr : r ∈ df.rows) (hbad : ¬ (castCell dt (cellOf r c)).isSome) :
    ∀ df2, df_astype df c dt ≠ .ok df2 := by
  intro df2 h
  have h2 := (df_astype_ok_rows h).2
  exact hbad (List.all_eq_true.mp h2 r hr)

lemma astypeChain_ok_rows_length {steps : List (String × DType)} :
    ∀ {df df2 : DataFrame}, astypeChain df steps = .ok df2 → df2.rows.length = df.rows.length := by
  induction steps with
  | nil =>
    intro df df2 h
    cases h
    rfl
  | cons s t ih =>
    intro df df2 h
    obtain ⟨c, dt⟩ := s
    unfold astypeChain at h
    cases h1 : df_astype df c dt with
    | error e => rw [h1] at h; cases h
    | ok d1 =>
      rw [h1] at h
      rw [ih h, df_astype_ok_rows_length h1]

lemma astypeChain_ok_columns {steps : List (String × DType)} :
    ∀ {df df2 : DataFrame}, astypeChain df steps = .ok df2 → df2.columns = df.columns := by
  induction steps with
  | nil =>
    intro df df2 h
    cases h
    rfl
  | cons s t ih =>
    intro df df2 h
    obtain ⟨c, dt⟩ := s
    unfold astypeChain at h
    cases h1 : df_astype df c dt with
    | error e => rw [h1] at h; cases h
    | ok d1 =>
      rw [h1] at h
      rw [ih h, df_astype_ok_columns h1]

lemma astypeChain_cell_invariant {col : String} {v : PyVal} {steps : List (String × DType)}
    (hsteps : ∀ s ∈ steps, s.1 ≠ col ∨ castCell s.2 v = some v) :
    ∀ {df df2 : DataFrame}, astypeChain df steps = .ok df2 →
      (∀ r ∈ df.rows, cellOf r col = v) → ∀ r2 ∈ df2.rows, cellOf r2 col = v := by
  induction steps with
  | nil =>
    intro df df2 h hv
    cases h
    exact hv
  | cons s t ih =>
    intro df df2 h hv
    obtain ⟨c, dt⟩ := s
    unfold astypeChain at h
    cases h1 : df_astype df c dt with
    | error e => rw [h1] at h; cases h
    | ok d1 =>
      rw [h1] at h
      have hT : ∀ s ∈ t, s.1 ≠ col ∨ castCell s.2 v = some v :=
        fun s hs => hsteps s (List.mem_cons_of_mem _ hs)
      rcases hsteps (c, dt) (List.mem_cons_self _ _) with hne | hcast
      · refine ih hT h (fun r1 hr1 => ?_)
        rcases df_astype_ok_cells_ne h1 col (fun hh => hne hh.symm) r1 hr1 with ⟨r, hr, hrr⟩
        rw [hrr]
        exact hv r hr
      · by_cases hcc : c = col
        · subst hcc
          exact ih hT h (df_astype_ok_cell_const h1 hv hcast)
        · refine ih hT h (fun r1 hr1 => ?_)
          rcases df_astype_ok_cells_ne h1 col (fun hh => hcc hh.symm) r1 hr1 with ⟨r, hr, hrr⟩
          rw [hrr]
          exact hv r hr

lemma astypeChain_not_ok_of_bad_col {col : String} {dt0 : DType} {v : PyVal}
    (hvbad : castCell dt0 v = none) : ∀ {steps : List (String × DType)} {df : DataFrame},
    (col, dt0) ∈ steps → (steps.map Prod.fst).Nodup → df.rows ≠ [] →
    (∀ r ∈ df.rows, cellOf r col = v) → ∀ df2, astypeChain df steps ≠ .ok df2 := by
  intro steps
  induction steps with
  | nil =>
    intro df hmem
    simp at hmem
  | cons s t ih =>
    intro df hmem hnd hne hv df2 h
    obtain ⟨c, dt⟩ := s
    unfold astypeChain at h
    cases h1 : df_astype df c dt with
    | error e => rw [h1] at h; cases h
    | ok d1 =>
      rw [h1] at h
      rcases List.mem_cons.mp hmem with heq | hmem2
      · injection heq with hc hd
        subst hc
        subst hd
        rcases List.exists_mem_of_ne_nil df.rows hne with ⟨r, hr⟩
        refine df_astype_not_ok df col dt0 r hr ?_ d1 h1
        rw [hv r hr, hvbad]
        simp
      · have hnd2 : (t.map Prod.fst).Nodup := (List.nodup_cons.mp (by simpa using hnd)).2
        have hcne : c ≠ col := by
          intro hcc
          subst hcc
          have hnotin : c ∉ t.map Prod.fst := (List.nodup_cons.mp (by simpa using hnd)).1
          exact hnotin (List.mem_map_of_mem Prod.fst hmem2)
        have hne2 : d1.rows ≠ [] := by
          intro hnil
          apply hne
          have hlen := df_astype_ok_rows_length h1
          rw [hnil] at hlen
          exact List.eq_nil_of_length_eq_zero hlen.symm
        refine ih hmem2 hnd2 hne2 (fun r1 hr1 => ?_) df2 h
        rcases df_astype_ok_cells_ne h1 col (fun hh => hcne hh.symm) r1 hr1 with ⟨r, hr, hrr⟩
        rw [hrr]
        exact hv r hr

lemma astypeChain_ok_of (steps : List (String × DType)) :
    ∀ (df : DataFrame), (steps.map Prod.fst).Nodup →
    (∀ s ∈ steps, s.1 ∈ df.columns) →
    (∀ s ∈ steps, ∀ r ∈ df.rows, (castCell s.2 (cellOf r s.1)).isSome) →
    ∃ df2, astypeChain df steps = .ok df2 := by
  induction steps with
  | nil => exact fun df _ _ _ => ⟨df, rfl⟩
  | cons s t ih =>
    intro df hnd hcols hcast
    obtain ⟨c, dt⟩ := s
    rcases df_astype_ok_of df c dt (hcols (c, dt) (List.mem_cons_self _ _))
      (hcast (c, dt) (List.mem_cons_self _ _)) with ⟨d1, h1⟩
    have hnd2 : (t.map Prod.fst).Nodup := (List.nodup_cons.mp (by simpa using hnd)).2
    have hcnotin : c ∉ t.map Prod.fst := (List.nodup_cons.mp (by simpa using hnd)).1
    have hcols2 : ∀ s ∈ t, s.1 ∈ d1.columns := by
      intro s hs
      rw [df_astype_ok_columns h1]
      exact hcols s (List.mem_cons_of_mem _ hs)
    have hcast2 : ∀ s ∈ t, ∀ r1 ∈ d1.rows, (castCell s.2 (cellOf r1 s.1)).isSome := by
      intro s hs r1 hr1
      have hsne : s.1 ≠ c := by
        intro hh
        exact hcnotin (hh ▸ List.mem_map_of_mem Prod.fst hs)
      rcases df_astype_ok_cells_ne h1 s.1 hsne r1 hr1 with ⟨r, hr, hrr⟩
      rw [hrr]
      exact hcast s (List.mem_cons_of_mem _ hs) r hr
    rcases ih d1 hnd2 hcols2 hcast2 with ⟨df2, h2⟩
    refine ⟨df2, ?_⟩
    unfold astypeChain
    rw [h1]
    exact h2

lemma mkDataFrame_rows_length (records : List Record) :
    (mkDataFrame records).rows.length = records.length := by
  simp [mkDataFrame]

lemma recordGet_keyed (cols : List String) (f : String → PyVal) (k : String) :
    recordGet (cols.map (fun c => (c, f c))) k = if k ∈ cols then some (f k) else none := by
  induction cols with
  | nil => simp [recordGet]
  | cons c0 t ih =>
    by_cases h : c0 = k
    · subst h
      simp [recordGet, List.find?]
    · have h2 : ¬ k = c0 := fun hh => h hh.symm
      unfold recordGet at ih ⊢
      rw [List.map_cons]
      rw [show List.find? (fun kv => decide (kv.1 = k)) ((c0, f c0) :: List.map (fun c => (c, f c)) t) =
        List.find? (fun kv => decide (kv.1 = k)) (List.map (fun c => (c, f c)) t) from by
          rw [List.find?_cons_of_neg]
          simpa using h]
      rw [ih]
      by_cases hm : k ∈ t
      · rw [if_pos hm, if_pos (List.mem_cons_of_mem _ hm)]
      · rw [if_neg hm, if_neg (by
          intro hc
          rcases List.mem_cons.mp hc with hc | hc
          · exact h2 hc
          · exact hm hc)]

lemma cellOf_mkDataFrame_row (records : List Record) (row : Record)
    (hrow : row ∈ (mkDataFrame records).rows) (k : String) :
    ∃ r ∈ records, cellOf row k =
      if k ∈ firstSeenKeys records then cellOf r k else PyVal.noneV := by
  have hrows : (mkDataFrame records).rows =
      records.map (fun r => (firstSeenKeys records).map (fun c => (c, cellOf r c))) := rfl
  rw [hrows] at hrow
  rcases List.mem_map.mp hrow with ⟨r, hr, hrr⟩
  refine ⟨r, hr, ?_⟩
  rw [← hrr]
  unfold cellOf
  rw [recordGet_keyed]
  by_cases hm : k ∈ firstSeenKeys records
  · rw [if_pos hm, if_pos hm]
    rfl
  · rw [if_neg hm, if_neg hm]
    rfl

lemma mem_foldKeys_preserve (r : Record) (x : String) :
    ∀ acc, x ∈ acc →
      x ∈ r.foldl (fun acc kv => if kv.1 ∈ acc then acc else acc ++ [kv.1]) acc := by
  induction r with
  | nil => exact fun acc h => h
  | cons kv t ih =>
    intro acc h
    rw [List.foldl_cons]
    apply ih
    by_cases hm : kv.1 ∈ acc
    · rw [if_pos hm]; exact h
    · rw [if_neg hm]; exact List.mem_append_left _ h

lemma mem_foldKeys_self (r : Record) (kv : String × PyVal) (hkv : kv ∈ r) :
    ∀ acc, kv.1 ∈ r.foldl (fun acc kv => if kv.1 ∈ acc then acc else acc ++ [kv.1]) acc := by
  induction r with
  | nil => cases hkv
  | cons kv0 t ih =>
    intro acc
    rw [List.foldl_cons]
    rcases List.mem_cons.mp hkv with heq | hmem
    · subst heq
      apply mem_foldKeys_preserve
      by_cases hm : kv.1 ∈ acc
      · rw [if_pos hm]; exact hm
      · rw [if_neg hm]; exact List.mem_append_right _ (by simp)
    · exact ih hmem _

lemma mem_outerFold_preserve (records : List Record) (x : String) :
    ∀ acc, x ∈ acc →
      x ∈ records.foldl
        (fun acc r => r.foldl (fun acc kv => if kv.1 ∈ acc then acc else acc ++ [kv.1]) acc) acc := by
  induction records with
  | nil => exact fun acc h => h
  | cons r t ih =>
    intro acc h
    rw [List.foldl_cons]
    exact ih _ (mem_foldKeys_preserve r x acc h)

lemma mem_outerFold_of (r : Record) (kv : String × PyVal) (hkv : kv ∈ r) :
    ∀ (records : List Record) (acc : List String), r ∈ records →
      kv.1 ∈ records.foldl
        (fun acc r => r.foldl (fun acc kv => if kv.1 ∈ acc then acc else acc ++ [kv.1]) acc) acc := by
  intro records
  induction records with
  | nil =>
    intro acc hr
    cases hr
  | cons r0 t ih =>
    intro acc hr
    rw [List.foldl_cons]
    rcases List.mem_cons.mp hr with heq | hmem
    · subst heq
      exact mem_outerFold_preserve t kv.1 _ (mem_foldKeys_self r kv hkv acc)
    · exact ih _ hmem

lemma mem_firstSeenKeys_of (records : List Record) (r : Record) (kv : String × PyVal)
    (hr : r ∈ records) (hkv : kv ∈ r) : kv.1 ∈ firstSeenKeys records :=
  mem_outerFold_of r kv hkv records [] hr

lemma auctionRecord_get_realm (ad : AuctionDataM) (b : Bool) (a : AuctionM) :
    recordGet (auctionRecord ad b a) "connected_realm_id" = some (optIntCell ad.connected_realm_id) := rfl

lemma auctionRecord_get_auction_id (ad : AuctionDataM) (b : Bool) (a : AuctionM) :
    recordGet (auctionRecord ad b a) "auction_id" = some (optIntCell a.id) := rfl

lemma auctionRecord_get_item_id (ad : AuctionDataM) (b : Bool) (a : AuctionM) :
    recordGet (auctionRecord ad b a) "item_id" = some (optIntCell a.item.id) := rfl

lemma auctionRecord_get_quantity (ad : AuctionDataM) (b : Bool) (a : AuctionM) :
    recordGet (auctionRecord ad b a) "quantity" = some (.int a.quantity) := rfl

lemma auctionRecord_get_time_left (ad : AuctionDataM) (b : Bool) (a : AuctionM) :
    recordGet (auctionRecord ad b a) "time_left" = some (optStrCell a.time_left) := rfl

lemma auctionRecord_get_unit_price (ad : AuctionDataM) (b : Bool) (a : AuctionM) :
    recordGet (auctionRecord ad b a) "unit_price" = some (optIntCell a.unit_price) := rfl

lemma auctionRecord_get_buyout (ad : AuctionDataM) (b : Bool) (a : AuctionM) :
    recordGet (auctionRecord ad b a) "buyout" = some (optIntCell a.buyout) := rfl

lemma auctionRecord_get_bid (ad : AuctionDataM) (b : Bool) (a : AuctionM) :
    recordGet (auctionRecord ad b a) "bid" = some (optIntCell a.bid) := rfl

lemma key_mem_firstSeen_of_recordGet (records : List Record) (r : Record) (k : String)
    (v : PyVal) (hr : r ∈ records) (hget : recordGet r k = some v) : k ∈ firstSeenKeys records := by
  unfold recordGet at hget
  cases hf : r.find? (fun kv => decide (kv.1 = k)) with
  | none => rw [hf] at hget; cases hget
  | some kv =>
    have hmem := List.mem_of_find?_eq_some hf
    have hk : kv.1 = k := by simpa using List.find?_some hf
    rw [← hk]
    exact mem_firstSeenKeys_of records r kv hr hmem

lemma mkDataFrame_castable (records : List Record) (col : String) (dt : DType)
    (hmem : col ∈ firstSeenKeys records)
    (h : ∀ r ∈ records, (castCell dt (cellOf r col)).isSome) :
    ∀ row ∈ (mkDataFrame records).rows, (castCell dt (cellOf row col)).isSome := by
  intro row hrow
  rcases cellOf_mkDataFrame_row records row hrow col with ⟨r, hr, hc⟩
  rw [hc, if_pos hmem]
  exact h r hr

lemma mkDataFrame_cell_const (records : List Record) (col : String) (v : PyVal)
    (h : ∀ r ∈ records, cellOf r col = v) (hvn : v = PyVal.noneV ∨ col ∈ firstSeenKeys records) :
    ∀ row ∈ (mkDataFrame records).rows, cellOf row col = v := by
  intro row hrow
  rcases cellOf_mkDataFrame_row records row hrow col with ⟨r, hr, hc⟩
  rcases hvn with hvn | hmem
  · subst hvn
    rw [hc]
    by_cases hm : col ∈ firstSeenKeys records
    · rw [if_pos hm]
      exact h r hr
    · rw [if_neg hm]
  · rw [hc, if_pos hmem]
    exact h r hr

/-- Typing discipline of the spec data model (section 3): every auction
and item has an integer id and the batch has an integer realm id. -/
def wellTypedAuctionData (ad : AuctionDataM) : Bool :=
  ad.connected_realm_id.isSome && ad.auctions.all (fun a => a.id.isSome && a.item.id.isSome)

lemma castCell_optIntCell_nullable (x : Option Int) :
    (castCell .nullableInt64 (optIntCell x)).isSome := by
  cases x <;> rfl

lemma castCell_optStrCell_category (x : Option String) :
    (castCell .category (optStrCell x)).isSome := by
  cases x <;> rfl

lemma auctions_to_dataframe_rows_length (ad : AuctionDataM) (b : Bool) (df : DataFrame)
    (h : auctions_to_dataframe ad b = .ok df) : df.rows.length = ad.auctions.length := by
  unfold auctions_to_dataframe at h
  by_cases h0 : 0 < (mkDataFrame (ad.auctions.map (auctionRecord ad b))).rows.length
  · rw [if_pos h0] at h
    have hlen := astypeChain_ok_rows_length h
    rw [hlen, mkDataFrame_rows_length, List.length_map]
  · rw [if_neg h0] at h
    cases h
    rw [mkDataFrame_rows_length, List.length_map]

lemma auctions_to_dataframe_empty (rid : Option Int) (t : Timestamp) (b : Bool) :
    auctions_to_dataframe { connected_realm_id := rid, auctions := [], fetch_timestamp := t } b =
      .ok { columns := [], rows := [], dtypes := [] } := rfl

lemma auctions_to_dataframe_ok_of_wellTyped (ad : AuctionDataM) (b : Bool)
    (hwt : wellTypedAuctionData ad = true) :
    ∃ df, auctions_to_dataframe ad b = .ok df ∧ df.rows.length = ad.auctions.length := by
  unfold wellTypedAuctionData at hwt
  rw [Bool.and_eq_true] at hwt
  have hrealm := hwt.1
  have hauct := List.all_eq_true.mp hwt.2
  cases hA : ad.auctions with
  | nil =>
    refine ⟨{ columns := [], rows := [], dtypes := [] }, ?_, ?_⟩
    · unfold auctions_to_dataframe
      rw [hA]
      rfl
    · rfl
  | cons a0 rest =>
    have hrec0 : auctionRecord ad b a0 ∈ ad.auctions.map (auctionRecord ad b) := by
      rw [hA]
      exact List.mem_map_of_mem _ (List.mem_cons_self _ _)
    have hrecords : ∀ r ∈ ad.auctions.map (auctionRecord ad b),
        ∃ a ∈ ad.auctions, r = auctionRecord ad b a := by
      intro r hr
      rcases List.mem_map.mp hr with ⟨a, ha, hra⟩
      exact ⟨a, ha, hra.symm⟩
    have hkeys : ∀ s ∈ auctionDtypeSteps,
        s.1 ∈ firstSeenKeys (ad.auctions.map (auctionRecord ad b)) := by
      intro s hs
      fin_cases hs
      · exact key_mem_firstSeen_of_recordGet _ _ _ _ hrec0 (auctionRecord_get_auction_id ad b a0)
      · exact key_mem_firstSeen_of_recordGet _ _ _ _ hrec0 (auctionRecord_get_item_id ad b a0)
      · exact key_mem_firstSeen_of_recordGet _ _ _ _ hrec0 (auctionRecord_get_quantity ad b a0)
      · exact key_mem_firstSeen_of_recordGet _ _ _ _ hrec0 (auctionRecord_get_realm ad b a0)
      · exact key_mem_firstSeen_of_recordGet _ _ _ _ hrec0 (auctionRecord_get_unit_price ad b a0)
      · exact key_mem_firstSeen_of_recordGet _ _ _ _ hrec0 (auctionRecord_get_buyout ad b a0)
      · exact key_mem_firstSeen_of_recordGet _ _ _ _ hrec0 (auctionRecord_get_bid ad b a0)
      · exact key_mem_firstSeen_of_recordGet _ _ _ _ hrec0 (auctionRecord_get_time_left ad b a0)
    have hcast : ∀ s ∈ auctionDtypeSteps,
        ∀ row ∈ (mkDataFrame (ad.auctions.map (auctionRecord ad b))).rows,
          (castCell s.2 (cellOf row s.1)).isSome := by
      intro s hs
      have hmem := hkeys s hs
      fin_cases hs
      · refine mkDataFrame_castable _ _ _ hmem ?_
        intro r hr
        rcases hrecords r hr with ⟨a, ha, hra⟩
        subst hra
        unfold cellOf
        rw [auctionRecord_get_auction_id]
        have hab := hauct a ha
        rw [Bool.and_eq_true] at hab
        rcases Option.isSome_iff_exists.mp hab.1 with ⟨n, hn⟩
        rw [hn]
        rfl
      · refine mkDataFrame_castable _ _ _ hmem ?_
        intro r hr
        rcases hrecords r hr with ⟨a, ha, hra⟩
        subst hra
        unfold cellOf
        rw [auctionRecord_get_item_id]
        have hab := hauct a ha
        rw [Bool.and_eq_true] at hab
        rcases Option.isSome_iff_exists.mp hab.2 with ⟨n, hn⟩
        rw [hn]
        rfl
      · refine mkDataFrame_castable _ _ _ hmem ?_
        intro r hr
        rcases hrecords r hr with ⟨a, ha, hra⟩
        subst hra
        unfold cellOf
        rw [auctionRecord_get_quantity]
        rfl
      · refine mkDataFrame_castable _ _ _ hmem ?_
        intro r hr
        rcases hrecords r hr with ⟨a, ha, hra⟩
        subst hra
        unfold cellOf
        rw [auctionRecord_get_realm]
        rcases Option.isSome_iff_exists.mp hrealm with ⟨n, hn⟩
        rw [hn]
        rfl
      · refine mkDataFrame_castable _ _ _ hmem ?_
        intro r hr
        rcases hrecords r hr with ⟨a, ha, hra⟩
        subst hra
        unfold cellOf
        rw [auctionRecord_get_unit_price]
        exact castCell_optIntCell_nullable a.unit_price
      · refine mkDataFrame_castable _ _ _ hmem ?_
        intro r hr
        rcases hrecords r hr with ⟨a, ha, hra⟩
        subst hra
        unfold cellOf
        rw [auctionRecord_get_buyout]
        exact castCell_optIntCell_nullable a.buyout
      · refine mkDataFrame_castable _ _ _ hmem ?_
        intro r hr
        rcases hrecords r hr with ⟨a, ha, hra⟩
        subst hra
        unfold cellOf
        rw [auctionRecord_get_bid]
        exact castCell_optIntCell_nullable a.bid
      · refine mkDataFrame_castable _ _ _ hmem ?_
        intro r hr
        rcases hrecords r hr with ⟨a, ha, hra⟩
        subst hra
        unfold cellOf
        rw [auctionRecord_get_time_left]
        exact castCell_optStrCell_category a.time_left
    have hnd : (auctionDtypeSteps.map Prod.fst).Nodup := by decide
    have hcols : ∀ s ∈ auctionDtypeSteps,
        s.1 ∈ (mkDataFrame (ad.auctions.map (auctionRecord ad b))).columns := hkeys
    rcases astypeChain_ok_of auctionDtypeSteps _ hnd hcols hcast with ⟨df2, h2⟩
    refine ⟨df2, ?_, ?_⟩
    · unfold auctions_to_dataframe
      rw [if_pos (by rw [mkDataFrame_rows_length, List.length_map, hA]; simp)]
      exact h2
    · rw [astypeChain_ok_rows_length h2, mkDataFrame_rows_length, List.length_map, hA]

lemma auctionRecord_cellOf_realm (ad : AuctionDataM) (b : Bool) (a : AuctionM) :
    cellOf (auctionRecord ad b a) "connected_realm_id" = optIntCell ad.connected_realm_id := by
  unfold cellOf
  rw [auctionRecord_get_realm]
  rfl

lemma auctions_to_dataframe_realm_cells (ad : AuctionDataM) (b : Bool) (df : DataFrame) (n : Int)
    (h : auctions_to_dataframe ad b = .ok df) (hn : ad.connected_realm_id = some n)
    (hw : castCell .int32 (.int n) = some (.int n)) :
    ∀ row ∈ df.rows, cellOf row "connected_realm_id" = .int n := by
  unfold auctions_to_dataframe at h
  cases hA : ad.auctions with
  | nil =>
    rw [hA] at h
    have h0 : ¬ 0 < (mkDataFrame (([] : List AuctionM).map (auctionRecord ad b))).rows.length := by
      rw [mkDataFrame_rows_length]
      simp
    rw [if_neg h0] at h
    cases h
    intro row hrow
    cases hrow
  | cons a0 rest =>
    rw [hA] at h
    have hpos : 0 < (mkDataFrame ((a0 :: rest).map (auctionRecord ad b))).rows.length := by
      rw [mkDataFrame_rows_length]
      simp
    rw [if_pos hpos] at h
    have hrec0 : auctionRecord ad b a0 ∈ (a0 :: rest).map (auctionRecord ad b) :=
      List.mem_map_of_mem _ (List.mem_cons_self _ _)
    have hmem : "connected_realm_id" ∈ firstSeenKeys ((a0 :: rest).map (auctionRecord ad b)) :=
      key_mem_firstSeen_of_recordGet _ _ _ _ hrec0 (auctionRecord_get_realm ad b a0)
    have hstart : ∀ row ∈ (mkDataFrame ((a0 :: rest).map (auctionRecord ad b))).rows,
        cellOf row "connected_realm_id" = PyVal.int n := by
      refine mkDataFrame_cell_const _ _ _ ?_ (Or.inr hmem)
      intro r hr
      rcases List.mem_map.mp hr with ⟨a, _, hra⟩
      subst hra
      rw [auctionRecord_cellOf_realm, hn]
      rfl
    have hsteps : ∀ s ∈ auctionDtypeSteps,
        s.1 ≠ "connected_realm_id" ∨ castCell s.2 (PyVal.int n) = some (PyVal.int n) := by
      intro s hs
      fin_cases hs
      · exact Or.inl (by decide)
      · exact Or.inl (by decide)
      · exact Or.inl (by decide)
      · exact Or.inr hw
      · exact Or.inl (by decide)
      · exact Or.inl (by decide)
      · exact Or.inl (by decide)
      · exact Or.inl (by decide)
    exact astypeChain_cell_invariant hsteps h hstart

lemma auctions_to_dataframe_err_of_none_realm (ad : AuctionDataM)
    (hnone : ad.connected_realm_id = none) (hne : ad.auctions ≠ []) :
    ∀ df, auctions_to_dataframe ad true ≠ .ok df := by
  intro df h
  unfold auctions_to_dataframe at h
  have hpos : 0 < (mkDataFrame (ad.auctions.map (auctionRecord ad true))).rows.length := by
    rw [mkDataFrame_rows_length, List.length_map]
    exact List.length_pos.mpr hne
  rw [if_pos hpos] at h
  have hcells : ∀ r ∈ (mkDataFrame (ad.auctions.map (auctionRecord ad true))).rows,
      cellOf r "connected_realm_id" = PyVal.noneV := by
    refine mkDataFrame_cell_const _ _ _ ?_ (Or.inl rfl)
    intro r hr
    rcases List.mem_map.mp hr with ⟨a, _, hra⟩
    subst hra
    rw [auctionRecord_cellOf_realm, hnone]
    rfl
  have hrows : (mkDataFrame (ad.auctions.map (auctionRecord ad true))).rows ≠ [] := by
    intro hnil
    rw [hnil] at hpos
    simp at hpos
  exact @astypeChain_not_ok_of_bad_col "connected_realm_id" DType.int32 PyVal.noneV rfl
    auctionDtypeSteps _ (by decide) (by decide) hrows hcells df h

lemma commodities_writes_empty_of_none_realm (ad : AuctionDataM)
    (hnone : ad.connected_realm_id = none) : (fetch_and_store_commodities ad).1 = [] := by
  unfold fetch_and_store_commodities
  by_cases h0 : ad.auctions.length = 0
  · rw [if_pos h0]
  · rw [if_neg h0]
    cases hdf : auctions_to_dataframe ad true with
    | error e => rfl
    | ok df =>
      exact absurd hdf (auctions_to_dataframe_err_of_none_realm ad hnone
        (fun hnil => h0 (by rw [hnil]; rfl)) df)

lemma storeRealmAuctionsLoop_writes (l : List (Int × AuctionDataM)) :
    ∀ (ws : List WriteOp) (ps : List (Int × String)),
      (∀ w ∈ ws, 0 < w.df.rows.length) →
      ∀ w ∈ (storeRealmAuctionsLoop l ws ps).1, 0 < w.df.rows.length := by
  induction l with
  | nil => exact fun ws ps hws => hws
  | cons p t ih =>
    intro ws ps hws
    obtain ⟨rid, ad⟩ := p
    unfold storeRealmAuctionsLoop
    by_cases h0 : 0 < ad.auctions.length
    · rw [if_pos h0]
      cases hdf : auctions_to_dataframe ad true with
      | error e => exact hws
      | ok df =>
        refine ih _ _ ?_
        intro w hw
        rcases List.mem_append.mp hw with hw | hw
        · exact hws w hw
        · rcases List.mem_singleton.mp hw with rfl
          rw [auctions_to_dataframe_rows_length ad true df hdf]
          exact h0
    · rw [if_neg h0]
      exact ih _ _ hws

lemma fetch_and_store_realm_auctions_writes (abr : List (Int × AuctionDataM)) :
    ∀ w ∈ (fetch_and_store_realm_auctions abr).1, 0 < w.df.rows.length :=
  storeRealmAuctionsLoop_writes abr [] [] (fun w hw => absurd hw (List.not_mem_nil w))

lemma fetch_and_store_commodities_writes (ad : AuctionDataM) :
    ∀ w ∈ (fetch_and_store_commodities ad).1, 0 < w.df.rows.length := by
  unfold fetch_and_store_commodities
  by_cases h0 : ad.auctions.length = 0
  · rw [if_pos h0]
    intro w hw
    cases hw
  · rw [if_neg h0]
    cases hdf : auctions_to_dataframe ad true with
    | error e =>
      intro w hw
      cases hw
    | ok df =>
      intro w hw
      rcases List.mem_singleton.mp hw with rfl
      rw [auctions_to_dataframe_rows_length ad true df hdf]
      omega

lemma fetch_and_store_realm_metadata_writes (realms : List (Int × ConnectedRealmM)) :
    ∀ w ∈ (fetch_and_store_realm_metadata realms).1, 0 < w.df.rows.length := by
  unfold fetch_and_store_realm_metadata
  cases hdf : connected_realms_to_dataframe realms with
  | error e =>
    intro w hw
    cases hw
  | ok df =>
    dsimp only
    by_cases h0 : 0 < df.rows.length
    · rw [if_pos h0]
      intro w hw
      rcases List.mem_singleton.mp hw with rfl
      exact h0
    · rw [if_neg h0]
      intro w hw
      cases hw

lemma auctions_extract_realm_id_nonneg (href : String) (n : Int)
    (h : auctions_extract_realm_id href = some n) : 0 ≤ n := by
  unfold auctions_extract_realm_id at h
  dsimp only at h
  by_cases h1 : href ≠ ""
  · rw [if_pos h1] at h
    dsimp only at h
    by_cases hd : ((pySplit ((pySplit href "/").getLastD "") "?").headD "") ≠ "" ∧
        pyIsDigit ((pySplit ((pySplit href "/").getLastD "") "?").headD "")
    · rw [if_pos hd] at h
      cases h
      exact Int.ofNat_nonneg _
    · rw [if_neg hd] at h
      cases h
  · rw [if_neg h1] at h
    cases h

lemma get_connected_realm_ids_auctions_nonneg (payload : JVal) :
    ∀ i ∈ get_connected_realm_ids_auctions payload, 0 ≤ i := by
  unfold get_connected_realm_ids_auctions
  generalize getArrD payload "connected_realms" = realms
  have hgen : ∀ (acc : List Int), (∀ i ∈ acc, 0 ≤ i) →
      ∀ i ∈ realms.foldl
        (fun acc realm =>
          match auctions_extract_realm_id (getStrD realm "href" "") with
          | some n => acc ++ [n]
          | none => acc) acc, 0 ≤ i := by
    induction realms with
    | nil => exact fun acc hacc => hacc
    | cons r t ih =>
      intro acc hacc
      rw [List.foldl_cons]
      cases hx : auctions_extract_realm_id (getStrD r "href" "") with
      | none => exact ih acc hacc
      | some n =>
        refine ih _ ?_
        intro i hi
        rcases List.mem_append.mp hi with hi | hi
        · exact hacc i hi
        · rcases List.mem_singleton.mp hi with rfl
          exact auctions_extract_realm_id_nonneg _ _ hx
  exact hgen [] (fun i hi => absurd hi (List.not_mem_nil i))

/-- C1 (counterexample): in `BlizzardAPIClient.get_multiple_realm_auctions`
(the `gather` without `return_exceptions`), a fetch that raises for realm
12 is not caught: all three fetches are dispatched, but the batch call
itself raises and the successful results for realms 11 and 13 are not
returned in any mapping — refuting the claim that an exception is caught,
the identifier excluded, and the call returns normally. -/
theorem c1_client_gather_raises :
    get_multiple_realm_auctions_client fetchBoom [11, 12, 13] 2 = ([11, 12, 13], .raised "boom") := by
  decide

/-- C1 (amended): in `AuctionsClient.get_multiple_realm_auctions` the
per-identifier `try/except` gives exactly the claimed isolation — the
batch always completes, every identifier is dispatched, a failing
identifier is absent from the mapping and every succeeding identifier maps
to its result; in `BlizzardAPIClient.get_multiple_realm_auctions`,
however, an exception from any identifier propagates and the batch call
raises instead of returning a mapping. -/
theorem c1_exception_isolation (fetch : Int → Except String AuctionDataM) (ids : List Int)
    (mc : Int) (h : 1 ≤ mc) :
    (∃ m, get_multiple_realm_auctions_auctions fetch ids mc = (ids, .completed m) ∧
      (∀ i e, i ∈ ids → fetch i = .error e → pyDictGet? m i = none) ∧
      (∀ i d, i ∈ ids → fetch i = .ok d → pyDictGet? m i = some d)) ∧
    (∀ i ∈ ids, ∀ e, fetch i = .error e →
      ∃ msg, get_multiple_realm_auctions_client fetch ids mc = (ids, .raised msg)) := by
  constructor
  · refine ⟨buildDict (fetchEntries (auctionsFetchOpt fetch) ids), auctions_batch_spec fetch ids mc h, ?_, ?_⟩
    · intro i e hi he
      refine pyDictGet?_buildDict_of_not_mem _ _ ?_
      intro hmem
      have h2 := (mem_map_fst_fetchEntries (auctionsFetchOpt fetch) ids i).mp hmem
      rw [auctionsFetchOpt, he] at h2
      simp [Except.toOption] at h2
    · intro i d hi hd
      refine pyDictGet?_buildDict_uniform _ _ _ ?_ ?_
      · intro p hp hpi
        have hu := fetchEntries_uniform (auctionsFetchOpt fetch) ids p hp
        rw [hpi, auctionsFetchOpt, hd] at hu
        simpa [Except.toOption] using hu.symm
      · refine (mem_map_fst_fetchEntries (auctionsFetchOpt fetch) ids i).mpr ⟨hi, ?_⟩
        rw [auctionsFetchOpt, hd]
        rfl
  · intro i hi e he
    exact client_batch_raises_of_error fetch ids mc h i hi e he

/-- C1 (witness): the amended isolation theorem applied to the concrete
three-realm scenario with realm 12 failing. -/
theorem c1_exception_isolation_witness :
    (1 : Int) ≤ 2 ∧
      ((∃ m, get_multiple_realm_auctions_auctions fetchBoom [11, 12, 13] 2 = ([11, 12, 13], .completed m) ∧
        (∀ i e, i ∈ [11, 12, 13] → fetchBoom i = .error e → pyDictGet? m i = none) ∧
        (∀ i d, i ∈ [11, 12, 13] → fetchBoom i = .ok d → pyDictGet? m i = some d)) ∧
      (∀ i ∈ [11, 12, 13], ∀ e, fetchBoom i = .error e →
        ∃ msg, get_multiple_realm_auctions_client fetchBoom [11, 12, 13] 2 = ([11, 12, 13], .raised msg))) :=
  ⟨by norm_num, c1_exception_isolation fetchBoom [11, 12, 13] 2 (by norm_num)⟩

/-- C2 (counterexample): with a fetch that succeeds with an auction-free
batch for every realm, the returned mapping of
`AuctionsClient.get_multiple_realm_auctions` still contains realm 1 even
though its result is empty (the claim requires empty results to be
excluded), and for the duplicated input `[1, 1]` the fetch is dispatched
twice (the claim requires duplicates to collapse to exactly one fetch). -/
theorem c2_empty_results_kept_and_duplicates_refetched :
    (get_multiple_realm_auctions_auctions fetchOkEmpty [1] 5 =
        ([1], .completed [(1, adOf 1)]) ∧ (adOf 1).auctions = []) ∧
      (get_multiple_realm_auctions_auctions fetchOkEmpty [1, 1] 5).1 = [1, 1] := by
  decide

/-- C2 (amended): for both bounded fetchers the mapping key set is
exactly the set of input identifiers whose fetch succeeded (with, for
`get_all_connected_realms`, a non-`None` realm), with no duplicate keys —
an empty-but-successful `AuctionData` is still included, and a duplicated
identifier is fetched once per occurrence while collapsing to a single
mapping entry. -/
theorem c2_result_key_set (fetch : Int → Except String AuctionDataM)
    (fetchR : Int → Except String (Option ConnectedRealmM)) (ids : List Int) (mc : Int)
    (h : 1 ≤ mc) :
    (∃ m, get_multiple_realm_auctions_auctions fetch ids mc = (ids, .completed m) ∧
      (∀ k, k ∈ pyDictKeys m ↔ k ∈ ids ∧ ((fetch k).toOption).isSome) ∧
      (pyDictKeys m).Nodup) ∧
    ((∀ i ∈ ids, ∃ v, fetchR i = .ok v) →
      ∃ m2, get_all_connected_realms fetchR ids mc = (ids, .completed m2) ∧
        (∀ k, k ∈ pyDictKeys m2 ↔ k ∈ ids ∧ ∃ r, fetchR k = .ok (some r)) ∧
        (pyDictKeys m2).Nodup) := by
  constructor
  · refine ⟨buildDict (fetchEntries (auctionsFetchOpt fetch) ids),
      auctions_batch_spec fetch ids mc h, ?_, nodup_pyDictKeys_buildDict _⟩
    intro k
    rw [mem_pyDictKeys_buildDict, mem_map_fst_fetchEntries]
    rfl
  · intro hok
    refine ⟨buildDict (fetchEntries (realmsFetchOpt fetchR) ids),
      realms_batch_completes_of_ok fetchR ids mc h hok, ?_, nodup_pyDictKeys_buildDict _⟩
    intro k
    rw [mem_pyDictKeys_buildDict, mem_map_fst_fetchEntries]
    constructor
    · rintro ⟨hk, hsome⟩
      refine ⟨hk, ?_⟩
      unfold realmsFetchOpt at hsome
      cases hf : fetchR k with
      | error e => rw [hf] at hsome; simp at hsome
      | ok v =>
        cases v with
        | none => rw [hf] at hsome; simp at hsome
        | some r => exact ⟨r, rfl⟩
    · rintro ⟨hk, r, hr⟩
      refine ⟨hk, ?_⟩
      unfold realmsFetchOpt
      rw [hr]
      rfl

/-- C2 (witness): the amended key-set theorem applied to the concrete
duplicated input `[1, 1]`. -/
theorem c2_result_key_set_witness :
    (1 : Int) ≤ 5 ∧
      ((∃ m, get_multiple_realm_auctions_auctions fetchOkEmpty [1, 1] 5 = ([1, 1], .completed m) ∧
        (∀ k, k ∈ pyDictKeys m ↔ k ∈ [1, 1] ∧ ((fetchOkEmpty k).toOption).isSome) ∧
        (pyDictKeys m).Nodup) ∧
      ((∀ i ∈ [1, 1], ∃ v, fetchRealmOk i = .ok v) →
        ∃ m2, get_all_connected_realms fetchRealmOk [1, 1] 5 = ([1, 1], .completed m2) ∧
          (∀ k, k ∈ pyDictKeys m2 ↔ k ∈ [1, 1] ∧ ∃ r, fetchRealmOk k = .ok (some r)) ∧
          (pyDictKeys m2).Nodup)) :=
  ⟨by norm_num, c2_result_key_set fetchOkEmpty fetchRealmOk [1, 1] 5 (by norm_num)⟩

/-- C3 (confirmed): `auctions_to_dataframe` yields exactly one row per
auction whenever it returns a frame; an auction-free `AuctionData` yields
the explicit no-data frame (no columns, no rows, no dtypes); and none of
the three workflows — realm metadata snapshot, per-realm auction
snapshot, commodity snapshot — ever issues a storage write whose frame
has zero rows. -/
theorem c3_row_count_and_no_empty_write (ad : AuctionDataM) (b : Bool) (df : DataFrame)
    (h : auctions_to_dataframe ad b = .ok df) (rid : Option Int) (t : Timestamp)
    (realms : List (Int × ConnectedRealmM)) (abr : List (Int × AuctionDataM))
    (cd : AuctionDataM) :
    df.rows.length = ad.auctions.length ∧
    auctions_to_dataframe { connected_realm_id := rid, auctions := [], fetch_timestamp := t } b =
      .ok { columns := [], rows := [], dtypes := [] } ∧
    (∀ w ∈ (fetch_and_store_realm_metadata realms).1, 0 < w.df.rows.length) ∧
    (∀ w ∈ (fetch_and_store_realm_auctions abr).1, 0 < w.df.rows.length) ∧
    (∀ w ∈ (fetch_and_store_commodities cd).1, 0 < w.df.rows.length) :=
  ⟨auctions_to_dataframe_rows_length ad b df h,
    auctions_to_dataframe_empty rid t b,
    fetch_and_store_realm_metadata_writes realms,
    fetch_and_store_realm_auctions_writes abr,
    fetch_and_store_commodities_writes cd⟩

/-- C3 (witness): the row-count and write-skipping theorem applied to an
auction-free batch, where the transform result is the empty frame. -/
theorem c3_row_count_and_no_empty_write_witness :
    ({ columns := [], rows := [], dtypes := [] } : DataFrame).rows.length = (adOf 1).auctions.length ∧
    auctions_to_dataframe { connected_realm_id := some 1, auctions := [], fetch_timestamp := t0 } true =
      .ok { columns := [], rows := [], dtypes := [] } ∧
    (∀ w ∈ (fetch_and_store_realm_metadata [(1, realmFixture)]).1, 0 < w.df.rows.length) ∧
    (∀ w ∈ (fetch_and_store_realm_auctions [(1, adOf 1)]).1, 0 < w.df.rows.length) ∧
    (∀ w ∈ (fetch_and_store_commodities (adOf 1)).1, 0 < w.df.rows.length) :=
  c3_row_count_and_no_empty_write (adOf 1) true { columns := [], rows := [], dtypes := [] }
    rfl (some 1) t0 [(1, realmFixture)] [(1, adOf 1)] (adOf 1)

/-- C4 (counterexample): with all three workflows requested and the realm
metadata workflow raising while the auction and commodity workflows would
both succeed, `execute` raises after invoking only the realm workflow:
the other two requested workflows never run and no structured result with
absent markers is returned — refuting the claim that a failure confined
to one workflow does not prevent the others from running. -/
theorem c4_execute_aborts_later_workflows :
    execute true true true wfRunsRealmsFail = (["realms"], .error "boom") := rfl

/-- C4 (amended): the three workflows run strictly in sequence inside
`execute` with no exception handling: when every included workflow
succeeds, the result carries each requested output and the `None` marker
for each skipped component; but when an included earlier workflow raises,
`execute` propagates that exception and the later workflows are never
invoked. -/
theorem c4_execute_sequencing (iR iA iC : Bool) (r : List (Int × ConnectedRealmM))
    (a : List (Int × String)) (c : Option String) (e : String)
    (wA : Except String (List (Int × String))) (wC : Except String (Option String)) :
    execute iR iA iC { realmsWf := .ok r, auctionsWf := .ok a, commoditiesWf := .ok c } =
      ((if iR then ["realms"] else []) ++ (if iA then ["auctions"] else []) ++
        (if iC then ["commodities"] else []),
       .ok { realms := if iR then some r else none
             auctions := if iA then some a else none
             commodities := if iC then c else none }) ∧
    execute true iA iC { realmsWf := .error e, auctionsWf := wA, commoditiesWf := wC } =
      (["realms"], .error e) := by
  constructor
  · cases iR <;> cases iA <;> cases iC <;>
      simp [execute, executeAuctionsStep, executeCommoditiesStep]
  · rfl

/-- C5 (counterexample): calling the bounded fetchers with
`max_concurrent = 0` reports no configuration error at all — the
semaphore accepts the value and every task parks on it, so the batch call
never completes instead of failing fast. -/
theorem c5_zero_concurrency_not_rejected :
    get_multiple_realm_auctions_auctions fetchOkEmpty [1] 0 = ([], .pending) ∧
      get_multiple_realm_auctions_client fetchOkEmpty [1] 0 = ([], .pending) := by
  decide

/-- C5 (amended): a negative `max_concurrent` raises `ValueError` from the
semaphore constructor before any fetch is dispatched (the trace is
empty), in all three bounded fetchers; `max_concurrent = 0` raises
nothing — with a non-empty id list the batch call simply never completes,
and no fetch runs; and for `max_concurrent ≥ 1` the isolating fetcher
completes without error. -/
theorem c5_semaphore_validation (fetch : Int → Except String AuctionDataM)
    (fetchR : Int → Except String (Option ConnectedRealmM)) (ids : List Int) :
    (∀ mc : Int, mc < 0 →
      get_multiple_realm_auctions_auctions fetch ids mc =
        ([], .raised "ValueError: Semaphore initial value must be >= 0") ∧
      get_multiple_realm_auctions_client fetch ids mc =
        ([], .raised "ValueError: Semaphore initial value must be >= 0") ∧
      get_all_connected_realms fetchR ids mc =
        ([], .raised "ValueError: Semaphore initial value must be >= 0")) ∧
    (ids ≠ [] →
      (get_multiple_realm_auctions_auctions fetch ids 0).2 = .pending ∧
      (get_multiple_realm_auctions_client fetch ids 0).2 = .pending ∧
      (get_multiple_realm_auctions_auctions fetch ids 0).1 = []) ∧
    (∀ mc : Int, 1 ≤ mc →
      ∃ m, get_multiple_realm_auctions_auctions fetch ids mc = (ids, .completed m)) := by
  refine ⟨?_, ?_, ?_⟩
  · intro mc hmc
    have hsem : semaphoreCheck mc = some "ValueError: Semaphore initial value must be >= 0" := by
      unfold semaphoreCheck
      rw [if_pos hmc]
    refine ⟨?_, ?_, ?_⟩
    · unfold get_multiple_realm_auctions_auctions
      rw [hsem]
    · unfold get_multiple_realm_auctions_client
      rw [hsem]
    · unfold get_all_connected_realms
      rw [hsem]
  · intro hne
    have hsem : semaphoreCheck 0 = none := by
      unfold semaphoreCheck
      rw [if_neg (by omega)]
    have hcond : (0 : Int) = 0 ∧ ids ≠ [] := ⟨rfl, hne⟩
    refine ⟨?_, ?_, ?_⟩
    · unfold get_multiple_realm_auctions_auctions
      rw [hsem]
      dsimp only
      rw [if_pos hcond]
    · unfold get_multiple_realm_auctions_client
      rw [hsem]
      dsimp only
      rw [if_pos hcond]
    · unfold get_multiple_realm_auctions_auctions
      rw [hsem]
      dsimp only
      rw [if_pos hcond]
  · intro mc hmc
    exact ⟨_, auctions_batch_spec fetch ids mc hmc⟩

/-- C5 (witness): the semaphore validation theorem applied to a singleton
id list, instantiated at `max_concurrent` equal to -1, 0 and 1. -/
theorem c5_semaphore_validation_witness :
    (get_multiple_realm_auctions_auctions fetchOkEmpty [1] (-1) =
      ([], .raised "ValueError: Semaphore initial value must be >= 0")) ∧
    (get_multiple_realm_auctions_auctions fetchOkEmpty [1] 0).2 = .pending ∧
    (∃ m, get_multiple_realm_auctions_auctions fetchOkEmpty [1] 1 = ([1], .completed m)) :=
  ⟨((c5_semaphore_validation fetchOkEmpty fetchRealmOk [1]).1 (-1) (by norm_num)).1,
   ((c5_semaphore_validation fetchOkEmpty fetchRealmOk [1]).2.1 (by simp)).1,
   (c5_semaphore_validation fetchOkEmpty fetchRealmOk [1]).2.2 1 (by norm_num)⟩

/-- C6 (confirmed): every row the commodity snapshot workflow writes has
the `connected_realm_id` column equal to the literal integer 0 — via
`BlizzardAPIClient.get_commodity_auctions` the parsed batch carries realm
id 0 into every written row, and via
`AuctionsClient.get_commodity_auctions` (which leaves the realm id
`None`) the dtype optimization fails on the `None`-valued column, so no
row is ever written at all; and an auction-free commodity pool writes
nothing and returns the explicit `None` marker. -/
theorem c6_commodity_rows_realm_zero (payload : JVal) (now : Timestamp) (rid : Option Int)
    (t : Timestamp) :
    (∀ w ∈ (fetch_and_store_commodities (get_commodity_auctions_client payload now)).1,
      ∀ row ∈ w.df.rows, cellOf row "connected_realm_id" = .int 0) ∧
    (∀ w ∈ (fetch_and_store_commodities (get_commodity_auctions_auctions payload now)).1,
      ∀ row ∈ w.df.rows, cellOf row "connected_realm_id" = .int 0) ∧
    fetch_and_store_commodities { connected_realm_id := rid, auctions := [], fetch_timestamp := t } =
      ([], .ok none) := by
  refine ⟨?_, ?_, rfl⟩
  · unfold fetch_and_store_commodities
    by_cases h0 : (get_commodity_auctions_client payload now).auctions.length = 0
    · rw [if_pos h0]
      intro w hw
      cases hw
    · rw [if_neg h0]
      cases hdf : auctions_to_dataframe (get_commodity_auctions_client payload now) true with
      | error e =>
        intro w hw
        cases hw
      | ok df =>
        intro w hw
        rcases List.mem_singleton.mp hw with rfl
        exact auctions_to_dataframe_realm_cells _ true df 0 hdf rfl (by decide)
  · have hempty := commodities_writes_empty_of_none_realm
      (get_commodity_auctions_auctions payload now) rfl
    intro w hw
    rw [hempty] at hw
    cases hw

/-- C6 (witness): the commodity theorem applied to an empty commodity
batch, yielding the explicit nothing-written marker. -/
theorem c6_commodity_rows_realm_zero_witness :
    fetch_and_store_commodities { connected_realm_id := some 7, auctions := [], fetch_timestamp := t0 } =
      ([], .ok none) :=
  (c6_commodity_rows_realm_zero (JVal.jobj []) t0 (some 7) t0).2.2

/-- C7 (counterexample): `BlizzardAPIClient.get_connected_realm_ids`
applies `int()` to the segment after the `/connected-realm/` marker, so a
link with the non-numeric trailing segment `abc` makes the extraction
raise `ValueError` instead of skipping that realm. -/
theorem c7_client_extraction_raises :
    get_connected_realm_ids_client linkPayloadBad =
      .error "ValueError: invalid literal for int() with base 10: abc" := rfl

/-- C7 (amended): `AuctionsClient.get_connected_realm_ids` implements the
claimed extraction — the spec link yields the integer 1234, a
non-numeric trailing segment is skipped without raising, and every
returned id is a non-negative parse of an all-digit segment; the
`BlizzardAPIClient` variant agrees on numeric links but raises on
non-numeric segments. -/
theorem c7_trailing_segment_extraction (payload : JVal) :
    get_connected_realm_ids_auctions linkPayloadGood = [1234] ∧
    get_connected_realm_ids_auctions linkPayloadBad = [] ∧
    get_connected_realm_ids_client linkPayloadGood = .ok [1234] ∧
    (∀ i ∈ get_connected_realm_ids_auctions payload, 0 ≤ i) :=
  ⟨by decide, by decide, rfl, get_connected_realm_ids_auctions_nonneg payload⟩

/-- C7 (witness): the extraction theorem applied to the spec example
payload, recovering the non-negativity of the derived id 1234. -/
theorem c7_trailing_segment_extraction_witness : (0 : Int) ≤ 1234 :=
  (c7_trailing_segment_extraction linkPayloadGood).2.2.2 1234 (by decide)

/-- C8 (counterexample): parsing a payload whose item has the two
modifiers `{type 1, value 2}` and `{type 1, value 3}` through
`AuctionData.from_api_response` yields a type-keyed dict with the single
entry `(1, 3)` — the two modifiers are merged (last value wins) and the
result is not an order-preserving pair sequence, refuting the claim for
this parser. -/
theorem c8_modifiers_merged_in_domain_model :
    ((AuctionData_from_api_response modPayload (some 9) t0).auctions.map
        (fun a => a.item.modifiers) = [.typeDict [(some 1, some 3)]]) ∧
      (getArrD (getObjD ((getArrD modPayload "auctions").headD (.jobj [])) "item")
        "modifiers").length = 2 := by
  constructor
  · rfl
  · rfl

/-- C8 (amended): `BlizzardAPIClient._parse_auction_data` converts the
raw modifier list into the pair-sequence form, preserving source order
with no modifier merged or dropped (a full round-trip over any pair
list); `AuctionData.from_api_response` instead builds a dict keyed by
modifier type, so two modifiers sharing a type collapse to one entry with
the later value. -/
theorem c8_modifier_pair_sequence (mods : List (Int × Int)) (tp v1 v2 : Int) :
    parse_modifiers_client (mods.map encodeModifier) = mods ∧
    parse_modifiers_models (mods.map encodeModifier) =
      buildDict (mods.map (fun p => (some p.1, some p.2))) ∧
    parse_modifiers_models [encodeModifier (tp, v1), encodeModifier (tp, v2)] =
      [(some tp, some v2)] := by
  refine ⟨?_, ?_, ?_⟩
  · unfold parse_modifiers_client
    rw [List.map_map]
    have h : ((fun m => (getIntD m "type" 0, getIntD m "value" 0)) ∘ encodeModifier) = id := by
      funext p
      rfl
    rw [h, List.map_id]
  · unfold parse_modifiers_models
    rw [List.map_map]
    have h : ((fun m => (getInt? m "type", getInt? m "value")) ∘ encodeModifier) =
        (fun p : Int × Int => (some p.1, some p.2)) := by
      funext p
      rfl
    rw [h]
  · show buildDict [(some tp, some v1), (some tp, some v2)] = [(some tp, some v2)]
    simp [buildDict, pyDictInsert]

/-- C9 (counterexample): `AuctionData` is declared as a plain
`@dataclass` without `frozen=True`, so assigning to one of its fields
succeeds — mutation is permitted, refuting the claim that every domain
record is immutable. -/
theorem c9_auction_data_mutable :
    dataclassSetattr (dataclassByName "AuctionData") = .ok () := rfl

/-- C9 (amended): all seven domain dataclasses use structural field
equality, but only `AuctionItem`, `Auction` and `ConnectedRealm` are
frozen (field assignment raises `FrozenInstanceError`), while
`AuctionData`, `Item`, `Recipe` and `Profession` are mutable dataclasses
whose fields can be reassigned after construction; equality on the
embedded `Auction` record is field-by-field. -/
theorem c9_immutability_by_class (x y : AuctionM) :
    (∀ c ∈ domainDataclasses, c.structuralEq = true) ∧
    dataclassSetattr (dataclassByName "AuctionItem") = .error "FrozenInstanceError" ∧
    dataclassSetattr (dataclassByName "Auction") = .error "FrozenInstanceError" ∧
    dataclassSetattr (dataclassByName "ConnectedRealm") = .error "FrozenInstanceError" ∧
    dataclassSetattr (dataclassByName "AuctionData") = .ok () ∧
    dataclassSetattr (dataclassByName "Item") = .ok () ∧
    dataclassSetattr (dataclassByName "Recipe") = .ok () ∧
    dataclassSetattr (dataclassByName "Profession") = .ok () ∧
    (x.id = y.id → x.item = y.item → x.quantity = y.quantity → x.time_left = y.time_left →
      x.unit_price = y.unit_price → x.buyout = y.buyout → x.bid = y.bid → x = y) := by
  refine ⟨by decide, rfl, rfl, rfl, rfl, rfl, rfl, rfl, ?_⟩
  intro h1 h2 h3 h4 h5 h6 h7
  cases x
  cases y
  simp only [AuctionM.mk.injEq]
  exact ⟨h1, h2, h3, h4, h5, h6, h7⟩

/-- C9 (witness): the immutability theorem applied to two identical
auction records, discharging every field-equality hypothesis. -/
theorem c9_immutability_by_class_witness : fullAuction = fullAuction :=
  (c9_immutability_by_class fullAuction fullAuction).2.2.2.2.2.2.2.2
    rfl rfl rfl rfl rfl rfl rfl

/-- C10 (confirmed): transforming an auction-free `AuctionData` yields a
frame with zero rows and zero columns — none of the schema column names
is present and no dtypes are recorded, because the dtype-optimization
step is skipped; had it run on the empty frame it would raise a
`KeyError` on the first schema column. -/
theorem c10_empty_result_schemaless (rid : Option Int) (t : Timestamp) (b : Bool) :
    auctions_to_dataframe { connected_realm_id := rid, auctions := [], fetch_timestamp := t } b =
      .ok { columns := [], rows := [], dtypes := [] } ∧
    (∀ c ∈ auctionSchemaColumns,
      c ∉ ({ columns := [], rows := [], dtypes := [] } : DataFrame).columns) ∧
    optimize_auction_dtypes { columns := [], rows := [], dtypes := [] } =
      .error "KeyError: auction_id" := by
  refine ⟨auctions_to_dataframe_empty rid t b, ?_, rfl⟩
  intro c _ hc
  cases hc

/-- C10 (witness): the schemaless-empty-result theorem applied to a
concrete empty batch, recovering that the `auction_id` column is absent
from the no-data result. -/
theorem c10_empty_result_schemaless_witness :
    "auction_id" ∉ ({ columns := [], rows := [], dtypes := [] } : DataFrame).columns :=
  (c10_empty_result_schemaless (some 0) t0 true).2.1 "auction_id" (by decide)
